import Mathlib

/-!
Verification of the poker-hand evaluator (cards.rs, error.rs, poker_hand.rs,
lib.rs): a shallow embedding of the data model, the parser, the classifier,
the comparator and the winner selector, with theorems checking the
specification's claims against this embedding.
-/

namespace Poker

/-- The card suits (cards.rs, `Suits`). -/
inductive Suits where
  | Clubs
  | Diamonds
  | Hearts
  | Spades
deriving DecidableEq, Fintype

/-- The card ranks (cards.rs, `Ranks`). -/
inductive Ranks where
  | Two
  | Three
  | Four
  | Five
  | Six
  | Seven
  | Eight
  | Nine
  | Ten
  | Jack
  | Queen
  | King
  | Ace
deriving DecidableEq, Fintype

/-- The numeric discriminant of each rank, as declared in cards.rs
(`Two = 2` through `Ace = 14`).  The derived `Ord` on the Rust enum
compares these discriminants. -/
def Ranks.val : Ranks → Nat
  | .Two => 2
  | .Three => 3
  | .Four => 4
  | .Five => 5
  | .Six => 6
  | .Seven => 7
  | .Eight => 8
  | .Nine => 9
  | .Ten => 10
  | .Jack => 11
  | .Queen => 12
  | .King => 13
  | .Ace => 14

/-- An individual card (cards.rs, `Card`).  The source's `PartialEq` impl
compares `rank` and `suit`, which coincides with structural equality of
this structure. -/
structure Card where
  rank : Ranks
  suit : Suits
deriving DecidableEq

/-- Card construction (cards.rs, `Card::new`). -/
def Card.new (rank : Ranks) (suit : Suits) : Card := ⟨rank, suit⟩

/-- The `Ord` impl on `Card`: compare by rank only (cards.rs lines 55-59). -/
def Card.cmp (a b : Card) : Ordering := compare a.rank.val b.rank.val

/-- The `PartialOrd` impl on `Card` (cards.rs lines 61-65): delegates to the
derived total order on `Ranks`, hence always `some`. -/
def Card.partial_cmp (a b : Card) : Option Ordering :=
  some (compare a.rank.val b.rank.val)

/-- Poker hand types, in the order of their relative value
(poker_hand.rs, `PokerHandRanks`). -/
inductive PokerHandRanks where
  | HighCard
  | Pair
  | TwoPair
  | ThreeOfAKind
  | Straight
  | Flush
  | FullHouse
  | FourOfAKind
  | StraightFlush
deriving DecidableEq, Fintype

/-- The numeric discriminant of each hand rank (`HighCard = 1` …
`StraightFlush = 9`); the derived `Ord`/`PartialOrd` compare these. -/
def PokerHandRanks.val : PokerHandRanks → Nat
  | .HighCard => 1
  | .Pair => 2
  | .TwoPair => 3
  | .ThreeOfAKind => 4
  | .Straight => 5
  | .Flush => 6
  | .FullHouse => 7
  | .FourOfAKind => 8
  | .StraightFlush => 9

/-- An error for invalid poker hands (error.rs, `PokerHandError`). -/
structure PokerHandError where
  message : String
deriving DecidableEq

/-- Error construction (error.rs, `PokerHandError::new`). -/
def PokerHandError.new (message : String) : PokerHandError := ⟨message⟩

/-! ### The hand parser

`parse_hand_str` (poker_hand.rs lines 243-270) matches the whole string
against the anchored regex
`^(rank)(suit) (rank)(suit) (rank)(suit) (rank)(suit) (rank)(suit)$` with
`rank = [2-9]|10|[JQKA]` and `suit = [HSCD]`, then feeds each captured
rank/suit substring to `convert_strings_to_card`.  The embedding below
parses character by character; since no prefix of the rank alternation is
ambiguous (`1` can only start `10`), this deterministic scan accepts and
captures exactly what the regex does. -/

/-- One step of the regex rank group `[2-9]|10|[JQKA]`: the captured rank
substring and the remaining characters. -/
def rankCapture (cs : List Char) : Option (List Char × List Char) :=
  match cs with
  | [] => none
  | c :: rest =>
    if c = '1' then
      match rest with
      | [] => none
      | c2 :: rest2 => if c2 = '0' then some (['1', '0'], rest2) else none
    else if c = '2' then some (['2'], rest)
    else if c = '3' then some (['3'], rest)
    else if c = '4' then some (['4'], rest)
    else if c = '5' then some (['5'], rest)
    else if c = '6' then some (['6'], rest)
    else if c = '7' then some (['7'], rest)
    else if c = '8' then some (['8'], rest)
    else if c = '9' then some (['9'], rest)
    else if c = 'J' then some (['J'], rest)
    else if c = 'Q' then some (['Q'], rest)
    else if c = 'K' then some (['K'], rest)
    else if c = 'A' then some (['A'], rest)
    else none

/-- The regex suit character class `[HSCD]`. -/
def suitClass (c : Char) : Bool :=
  c = 'H' || c = 'S' || c = 'C' || c = 'D'

/-- The rank half of `convert_strings_to_card` (poker_hand.rs lines
201-216); `none` stands for the `panic!("Invalid card rank")` branch. -/
def rankFromString : List Char → Option Ranks
  | ['2'] => some .Two
  | ['3'] => some .Three
  | ['4'] => some .Four
  | ['5'] => some .Five
  | ['6'] => some .Six
  | ['7'] => some .Seven
  | ['8'] => some .Eight
  | ['9'] => some .Nine
  | ['1', '0'] => some .Ten
  | ['J'] => some .Jack
  | ['Q'] => some .Queen
  | ['K'] => some .King
  | ['A'] => some .Ace
  | _ => none

/-- The suit half of `convert_strings_to_card` (poker_hand.rs lines
217-223); `none` stands for the `panic!("Invalid card suit")` branch. -/
def suitFromString : List Char → Option Suits
  | ['H'] => some .Hearts
  | ['S'] => some .Spades
  | ['C'] => some .Clubs
  | ['D'] => some .Diamonds
  | _ => none

/-- `convert_strings_to_card` (poker_hand.rs lines 200-225); `none` stands
for either panic branch. -/
def convert_strings_to_card (rank suit : List Char) : Option Card :=
  match rankFromString rank, suitFromString suit with
  | some r, some s => some (Card.new r s)
  | _, _ => none

/-- Match one `(rank)(suit)` group pair of the regex and convert the
captures to a `Card`, returning the unconsumed characters. -/
def parse_card (cs : List Char) : Option (Card × List Char) :=
  match rankCapture cs with
  | some (rtok, s :: rest) =>
    if suitClass s then
      match convert_strings_to_card rtok [s] with
      | some c => some (c, rest)
      | none => none
    else none
  | _ => none

/-- Match one `(rank)(suit)` group pair followed by the literal single
space of the regex. -/
def parse_card_sp (cs : List Char) : Option (Card × List Char) :=
  match parse_card cs with
  | some (c, rest) =>
    match rest with
    | [] => none
    | c2 :: rest2 => if c2 = ' ' then some (c, rest2) else none
  | none => none

/-- `parse_hand_str` (poker_hand.rs lines 243-270): five cards separated by
single spaces, anchored at both ends. -/
def parse_hand_str (s : String) : Option (List Card) :=
  match parse_card_sp s.data with
  | some (c1, r1) =>
    match parse_card_sp r1 with
    | some (c2, r2) =>
      match parse_card_sp r2 with
      | some (c3, r3) =>
        match parse_card_sp r3 with
        | some (c4, r4) =>
          match parse_card r4 with
          | some (c5, rest) =>
            match rest with
            | [] => some [c1, c2, c3, c4, c5]
            | _ => none
          | none => none
        | none => none
      | none => none
    | none => none
  | none => none

/-! ### Sorting and duplicate detection

`PokerHand::new` first sorts the parsed cards ascending with the derived
(stable) `sort` under `Card`'s `Ord` (rank only) and then reverses, giving
descending rank order with rank-ties kept in reversed input order.  Rust's
`sort` is a stable sort, and a stable sort by a total preorder has a unique
result, so `List.insertionSort` (which Mathlib shows is stable) models it
exactly. -/

/-- The `Ord`-induced `≤` on cards: by rank value only. -/
def cardLe (a b : Card) : Prop := a.rank.val ≤ b.rank.val

instance : DecidableRel cardLe := fun a b =>
  inferInstanceAs (Decidable (a.rank.val ≤ b.rank.val))

instance : IsTotal Card cardLe := ⟨fun a b => Nat.le_total a.rank.val b.rank.val⟩

instance : IsTrans Card cardLe := ⟨fun _ _ _ h h' => Nat.le_trans h h'⟩

/-- Lines 50-52 of poker_hand.rs: `cards.sort(); cards.reverse();`. -/
def sortCards (cards : List Card) : List Card :=
  (cards.insertionSort cardLe).reverse

/-- `check_for_duplicate_cards` (poker_hand.rs lines 228-240): the nested
loop tests every pair `i < j` for equality under `Card`'s `PartialEq`
(rank and suit), which is structural equality here. -/
def check_for_duplicate_cards : List Card → Bool
  | [] => false
  | c :: rest => rest.any (fun x => c == x) || check_for_duplicate_cards rest

/-! ### The classifier

Each `check_*` function of poker_hand.rs takes the cards and the current
hand rank by mutable reference and returns a `bool`; the embedding returns
the triple (result, new hand rank, new cards).  The card vector always has
exactly five elements at these call sites, so each function pattern-matches
on a five-element list; the fallback arm (never reached from
`PokerHand.new`) leaves its arguments unchanged. -/

/-- `check_flush` (poker_hand.rs lines 78-88), as the flush condition; in
`classify` below the initial hand rank is `Flush` exactly when it holds. -/
def check_flush (cards : List Card) : Bool :=
  match cards with
  | [c0, c1, c2, c3, c4] =>
    c0.suit == c1.suit && c0.suit == c2.suit && c0.suit == c3.suit && c0.suit == c4.suit
  | _ => false

/-- `check_straight` (poker_hand.rs lines 90-115).  The rank discriminant
comparisons `cards[0].rank as isize == cards[i].rank as isize + i` are on
values 2..14, so `Nat` arithmetic is exact.  In the Ace-low case lines
108-110 remove the Ace from the front and push it to the back. -/
def check_straight (cards : List Card) (hand_rank : PokerHandRanks) :
    Bool × PokerHandRanks × List Card :=
  match cards with
  | [c0, c1, c2, c3, c4] =>
    if (c0.rank.val = c1.rank.val + 1 ∧ c0.rank.val = c2.rank.val + 2
          ∧ c0.rank.val = c3.rank.val + 3 ∧ c0.rank.val = c4.rank.val + 4)
        ∨ (c0.rank = Ranks.Ace ∧ c1.rank = Ranks.Five ∧ c2.rank = Ranks.Four
          ∧ c3.rank = Ranks.Three ∧ c4.rank = Ranks.Two) then
      let hr := if hand_rank = PokerHandRanks.Flush then PokerHandRanks.StraightFlush
        else PokerHandRanks.Straight
      if c0.rank = Ranks.Ace ∧ c1.rank = Ranks.Five then
        (true, hr, [c1, c2, c3, c4, c0])
      else
        (true, hr, cards)
    else
      (false, hand_rank, cards)
  | _ => (false, hand_rank, cards)

/-- `check_four_of_a_kind` (poker_hand.rs lines 117-130); the true branch
with the quad at the back swaps positions 0 and 4. -/
def check_four_of_a_kind (cards : List Card) (hand_rank : PokerHandRanks) :
    Bool × PokerHandRanks × List Card :=
  match cards with
  | [c0, c1, c2, c3, c4] =>
    if c1.rank = c2.rank ∧ c1.rank = c3.rank ∧ (c1.rank = c0.rank ∨ c1.rank = c4.rank) then
      if c4.rank = c1.rank then
        (true, PokerHandRanks.FourOfAKind, [c4, c1, c2, c3, c0])
      else
        (true, PokerHandRanks.FourOfAKind, cards)
    else
      (false, hand_rank, cards)
  | _ => (false, hand_rank, cards)

/-- `check_three_and_full_house` (poker_hand.rs lines 132-157); the swap
sequences `swap(0,3)` and `swap(0,3); swap(1,4)` are applied to the
five-element list explicitly. -/
def check_three_and_full_house (cards : List Card) (hand_rank : PokerHandRanks) :
    Bool × PokerHandRanks × List Card :=
  match cards with
  | [c0, c1, c2, c3, c4] =>
    if c0.rank = c1.rank ∧ c0.rank = c2.rank then
      if c3.rank = c4.rank then
        (true, PokerHandRanks.FullHouse, cards)
      else
        (true, PokerHandRanks.ThreeOfAKind, cards)
    else if c1.rank = c2.rank ∧ c1.rank = c3.rank then
      (true, PokerHandRanks.ThreeOfAKind, [c3, c1, c2, c0, c4])
    else if c2.rank = c3.rank ∧ c2.rank = c4.rank then
      let hr := if c0.rank = c1.rank then PokerHandRanks.FullHouse
        else PokerHandRanks.ThreeOfAKind
      (true, hr, [c3, c4, c2, c0, c1])
    else
      (false, hand_rank, cards)
  | _ => (false, hand_rank, cards)

/-- `check_one_and_two_pairs` (poker_hand.rs lines 159-198); each swap
sequence of the source is applied to the five-element list explicitly. -/
def check_one_and_two_pairs (cards : List Card) (hand_rank : PokerHandRanks) :
    Bool × PokerHandRanks × List Card :=
  match cards with
  | [c0, c1, c2, c3, c4] =>
    if c0.rank = c1.rank then
      if c2.rank = c3.rank then
        (true, PokerHandRanks.TwoPair, cards)
      else if c3.rank = c4.rank then
        (true, PokerHandRanks.TwoPair, [c0, c1, c4, c3, c2])
      else
        (true, PokerHandRanks.Pair, cards)
    else if c1.rank = c2.rank then
      if c3.rank = c4.rank then
        (true, PokerHandRanks.TwoPair, [c2, c1, c4, c3, c0])
      else
        (true, PokerHandRanks.Pair, [c2, c1, c0, c3, c4])
    else if c2.rank = c3.rank then
      (true, PokerHandRanks.Pair, [c2, c3, c0, c1, c4])
    else if c3.rank = c4.rank then
      (true, PokerHandRanks.Pair, [c4, c3, c0, c1, c2])
    else
      (false, hand_rank, cards)
  | _ => (false, hand_rank, cards)

/-- The classification section of `PokerHand::new` (poker_hand.rs lines
58-69): the hand rank starts at `HighCard`, `check_flush` may set it to
`Flush`, and the remaining checks run in the source's short-circuit
order. -/
def classify (cards : List Card) : PokerHandRanks × List Card :=
  let hr0 := if check_flush cards then PokerHandRanks.Flush else PokerHandRanks.HighCard
  match check_straight cards hr0 with
  | (true, hr, cs) => (hr, cs)
  | (false, hr, cs) =>
    match check_four_of_a_kind cs hr with
    | (true, hr2, cs2) => (hr2, cs2)
    | (false, hr2, cs2) =>
      match check_three_and_full_house cs2 hr2 with
      | (true, hr3, cs3) => (hr3, cs3)
      | (false, hr3, cs3) =>
        let r := check_one_and_two_pairs cs3 hr3
        (r.2.1, r.2.2)

/-! ### Rank-level mirror of the classifier

Apart from `check_flush`, every branch of the classifier inspects only the
card ranks, and every rearrangement is a fixed permutation of the five
positions, so the classifier factors through the list of rank values plus
the single flush bit.  The `*R` functions below repeat the `check_*`
functions verbatim on the list of rank discriminants; bridge lemmas prove
the factoring, and the rank-level form is finite enough to decide claims
over every sorted rank tuple. -/

/-- Rank-level `check_straight`: same branches as `check_straight`, with
`Ace, Five, Four, Three, Two` replaced by their discriminants. -/
def check_straightR (rs : List Nat) (hand_rank : PokerHandRanks) :
    Bool × PokerHandRanks × List Nat :=
  match rs with
  | [r0, r1, r2, r3, r4] =>
    if (r0 = r1 + 1 ∧ r0 = r2 + 2 ∧ r0 = r3 + 3 ∧ r0 = r4 + 4)
        ∨ (r0 = 14 ∧ r1 = 5 ∧ r2 = 4 ∧ r3 = 3 ∧ r4 = 2) then
      let hr := if hand_rank = PokerHandRanks.Flush then PokerHandRanks.StraightFlush
        else PokerHandRanks.Straight
      if r0 = 14 ∧ r1 = 5 then
        (true, hr, [r1, r2, r3, r4, r0])
      else
        (true, hr, rs)
    else
      (false, hand_rank, rs)
  | _ => (false, hand_rank, rs)

/-- Rank-level `check_four_of_a_kind`. -/
def check_four_of_a_kindR (rs : List Nat) (hand_rank : PokerHandRanks) :
    Bool × PokerHandRanks × List Nat :=
  match rs with
  | [r0, r1, r2, r3, r4] =>
    if r1 = r2 ∧ r1 = r3 ∧ (r1 = r0 ∨ r1 = r4) then
      if r4 = r1 then
        (true, PokerHandRanks.FourOfAKind, [r4, r1, r2, r3, r0])
      else
        (true, PokerHandRanks.FourOfAKind, rs)
    else
      (false, hand_rank, rs)
  | _ => (false, hand_rank, rs)

/-- Rank-level `check_three_and_full_house`. -/
def check_three_and_full_houseR (rs : List Nat) (hand_rank : PokerHandRanks) :
    Bool × PokerHandRanks × List Nat :=
  match rs with
  | [r0, r1, r2, r3, r4] =>
    if r0 = r1 ∧ r0 = r2 then
      if r3 = r4 then
        (true, PokerHandRanks.FullHouse, rs)
      else
        (true, PokerHandRanks.ThreeOfAKind, rs)
    else if r1 = r2 ∧ r1 = r3 then
      (true, PokerHandRanks.ThreeOfAKind, [r3, r1, r2, r0, r4])
    else if r2 = r3 ∧ r2 = r4 then
      let hr := if r0 = r1 then PokerHandRanks.FullHouse
        else PokerHandRanks.ThreeOfAKind
      (true, hr, [r3, r4, r2, r0, r1])
    else
      (false, hand_rank, rs)
  | _ => (false, hand_rank, rs)

/-- Rank-level `check_one_and_two_pairs`. -/
def check_one_and_two_pairsR (rs : List Nat) (hand_rank : PokerHandRanks) :
    Bool × PokerHandRanks × List Nat :=
  match rs with
  | [r0, r1, r2, r3, r4] =>
    if r0 = r1 then
      if r2 = r3 then
        (true, PokerHandRanks.TwoPair, rs)
      else if r3 = r4 then
        (true, PokerHandRanks.TwoPair, [r0, r1, r4, r3, r2])
      else
        (true, PokerHandRanks.Pair, rs)
    else if r1 = r2 then
      if r3 = r4 then
        (true, PokerHandRanks.TwoPair, [r2, r1, r4, r3, r0])
      else
        (true, PokerHandRanks.Pair, [r2, r1, r0, r3, r4])
    else if r2 = r3 then
      (true, PokerHandRanks.Pair, [r2, r3, r0, r1, r4])
    else if r3 = r4 then
      (true, PokerHandRanks.Pair, [r4, r3, r0, r1, r2])
    else
      (false, hand_rank, rs)
  | _ => (false, hand_rank, rs)

/-- Rank-level `classify`: the flush bit plays the role of `check_flush`. -/
def classifyR (rs : List Nat) (flush : Bool) : PokerHandRanks × List Nat :=
  let hr0 := if flush then PokerHandRanks.Flush else PokerHandRanks.HighCard
  match check_straightR rs hr0 with
  | (true, hr, cs) => (hr, cs)
  | (false, hr, cs) =>
    match check_four_of_a_kindR cs hr with
    | (true, hr2, cs2) => (hr2, cs2)
    | (false, hr2, cs2) =>
      match check_three_and_full_houseR cs2 hr2 with
      | (true, hr3, cs3) => (hr3, cs3)
      | (false, hr3, cs3) =>
        let r := check_one_and_two_pairsR cs3 hr3
        (r.2.1, r.2.2)

/-! ### Spec-side category and scoring-order predicates

These definitions follow the specification's words (spec.md section 4.3),
not the source: they are the refinement targets the classifier is compared
with.  They work on the multiset of rank values (via an internal descending
sort) plus the flush bit. -/

/-- Modelled from the spec: descending sort of rank values, the canonical
order of spec.md step 2. -/
def sortDescNat (rs : List Nat) : List Nat :=
  (rs.insertionSort (· ≤ ·)).reverse

/-- Modelled from the spec: "five ranks are five consecutive integers
(descending), OR the special case Ace,5,4,3,2" on a descending list. -/
def specIsStraight (ss : List Nat) : Bool :=
  match ss with
  | [r0, r1, r2, r3, r4] =>
    (r0 == r1 + 1 && r0 == r2 + 2 && r0 == r3 + 3 && r0 == r4 + 4)
      || (r0 == 14 && r1 == 5 && r2 == 4 && r3 == 3 && r4 == 2)
  | _ => false

/-- Modelled from the spec: some rank is shared by at least `k` cards. -/
def hasGroup (rs : List Nat) (k : Nat) : Bool :=
  rs.any (fun r => k ≤ rs.count r)

/-- Modelled from the spec: "three cards share a rank AND the other two
share a (different) rank". -/
def specFullHouse (rs : List Nat) : Bool :=
  rs.any (fun r => rs.count r == 3 && rs.any (fun q => q != r && rs.count q == 2))

/-- Modelled from the spec: "two disjoint pairs exist among the five
cards". -/
def specTwoPair (rs : List Nat) : Bool :=
  rs.any (fun r => 2 ≤ rs.count r && rs.any (fun q => q != r && 2 ≤ rs.count q))

/-- Modelled from the spec: the prioritized decision procedure of spec.md
section 4.3 — the first category predicate that matches, in descending
category value (StraightFlush > FourOfAKind > FullHouse > Flush > Straight
> ThreeOfAKind > TwoPair > Pair > HighCard), determines the category. -/
def specCategoryR (rs : List Nat) (flush : Bool) : PokerHandRanks :=
  let ss := sortDescNat rs
  if specIsStraight ss && flush then PokerHandRanks.StraightFlush
  else if hasGroup ss 4 then PokerHandRanks.FourOfAKind
  else if specFullHouse ss then PokerHandRanks.FullHouse
  else if flush then PokerHandRanks.Flush
  else if specIsStraight ss then PokerHandRanks.Straight
  else if hasGroup ss 3 then PokerHandRanks.ThreeOfAKind
  else if specTwoPair ss then PokerHandRanks.TwoPair
  else if hasGroup ss 2 then PokerHandRanks.Pair
  else PokerHandRanks.HighCard

/-- Adjacent-pairwise descending (weak) order on rank values. -/
def rankListDesc : List Nat → Bool
  | r0 :: r1 :: rest => r1 ≤ r0 && rankListDesc (r1 :: rest)
  | _ => true

/-- Modelled from the spec: the scoring-order arrangement each category
prescribes for the stored rank values (claim C2, amended with the wheel
exception of spec.md section 4.3.b: in an Ace-low straight the Ace is
stored last). -/
def arrangementOk (hr : PokerHandRanks) (rs : List Nat) : Bool :=
  match rs with
  | [a, b, c, d, e] =>
    match hr with
    | .FourOfAKind => a == b && b == c && c == d && a != e
    | .FullHouse => a == b && b == c && d == e && a != d
    | .ThreeOfAKind => a == b && b == c && d > e && a != d && a != e
    | .TwoPair => a == b && c == d && a > c && e != a && e != c
    | .Pair => a == b && c > d && d > e && a != c && a != d && a != e
    | .HighCard => a > b && b > c && c > d && d > e
    | .Flush => a > b && b > c && c > d && d > e
    | .Straight =>
      (a == b + 1 && b == c + 1 && c == d + 1 && d == e + 1)
        || (a == 5 && b == 4 && c == 3 && d == 2 && e == 14)
    | .StraightFlush =>
      (a == b + 1 && b == c + 1 && c == d + 1 && d == e + 1)
        || (a == 5 && b == 4 && c == 3 && d == 2 && e == 14)
  | _ => false

/-- A poker hand (poker_hand.rs, `PokerHand`): the original hand string, the
classified rank and the five cards in scoring order. -/
structure PokerHand where
  hand_handle : String
  hand_rank : PokerHandRanks
  cards : List Card
deriving DecidableEq

/-- `PokerHand::new` (poker_hand.rs lines 39-76). -/
def PokerHand.new (hand : String) : Except PokerHandError PokerHand :=
  match parse_hand_str hand with
  | none => .error (PokerHandError.new "Invalid poker hand")
  | some parsed =>
    let cards := sortCards parsed
    if check_for_duplicate_cards cards then
      .error (PokerHandError.new "Duplicate cards in hand")
    else
      let r := classify cards
      .ok { hand_handle := hand, hand_rank := r.1, cards := r.2 }

/-- A fixed card standing in for the value of an out-of-bounds index
(the source would panic there; the branch is unreachable). -/
def defaultCard : Card := Card.new Ranks.Two Suits.Clubs

/-- Scoring key of the first five cards of a hand: the five rank values
`cards[0]`..`cards[4]` as base-15 digits.  Two five-card hands have equal
keys iff their five rank values agree position by position, and the key
order is the lexicographic order the comparison loop of poker_hand.rs
implements. -/
def rankKey (l : List Card) : Nat :=
  ((((l.getD 0 defaultCard).rank.val * 15 + (l.getD 1 defaultCard).rank.val) * 15
      + (l.getD 2 defaultCard).rank.val) * 15
    + (l.getD 3 defaultCard).rank.val) * 15
  + (l.getD 4 defaultCard).rank.val

/-- The `PartialEq` impl on `PokerHand` (poker_hand.rs lines 273-286):
equal hand ranks and equal card ranks at the first five positions; suits
are ignored.  The source's loop indexes `cards[0]`..`cards[4]` and would
panic on a shorter vector (never constructed); the fallback arm models
that unreachable case by the equivalent key comparison. -/
def PokerHand.eq (a b : PokerHand) : Bool :=
  if a.hand_rank ≠ b.hand_rank then false
  else
    match a.cards, b.cards with
    | a0 :: a1 :: a2 :: a3 :: a4 :: _, b0 :: b1 :: b2 :: b3 :: b4 :: _ =>
      a0.rank == b0.rank && a1.rank == b1.rank && a2.rank == b2.rank
        && a3.rank == b3.rank && a4.rank == b4.rank
    | _, _ => rankKey a.cards == rankKey b.cards

/-- The `PartialOrd` impl on `PokerHand` (poker_hand.rs lines 288-306):
hand rank first, then the five scoring-order card ranks pairwise; every
branch returns `Some`.  As in `PokerHand.eq`, the fallback arm stands for
the unreachable out-of-bounds panic and matches the key comparison. -/
def PokerHand.partial_cmp (a b : PokerHand) : Option Ordering :=
  if a.hand_rank.val < b.hand_rank.val then some Ordering.lt
  else if b.hand_rank.val < a.hand_rank.val then some Ordering.gt
  else
    match a.cards, b.cards with
    | a0 :: a1 :: a2 :: a3 :: a4 :: _, b0 :: b1 :: b2 :: b3 :: b4 :: _ =>
      if a0.rank.val < b0.rank.val then some Ordering.lt
      else if b0.rank.val < a0.rank.val then some Ordering.gt
      else if a1.rank.val < b1.rank.val then some Ordering.lt
      else if b1.rank.val < a1.rank.val then some Ordering.gt
      else if a2.rank.val < b2.rank.val then some Ordering.lt
      else if b2.rank.val < a2.rank.val then some Ordering.gt
      else if a3.rank.val < b3.rank.val then some Ordering.lt
      else if b3.rank.val < a3.rank.val then some Ordering.gt
      else if a4.rank.val < b4.rank.val then some Ordering.lt
      else if b4.rank.val < a4.rank.val then some Ordering.gt
      else some Ordering.eq
    | _, _ => some (compare (rankKey a.cards) (rankKey b.cards))

/-- The ascending order used by `hand_handles.sort_by(|a, b|
a.partial_cmp(b).unwrap())` in lib.rs line 26. -/
def handLe (a b : PokerHand) : Prop := PokerHand.partial_cmp a b ≠ some Ordering.gt

instance : DecidableRel handLe := fun a b =>
  inferInstanceAs (Decidable (PokerHand.partial_cmp a b ≠ some Ordering.gt))

/-- `winning_hands` (lib.rs lines 12-47): build a hand from each string,
skipping the ones whose construction fails; stable-sort ascending and
reverse so the highest hand comes first; return the handles of the leading
hands that compare equal to the first (the source's loop breaks at the
first non-equal hand, i.e. takes the longest equal prefix).  The hand
collection loop of lib.rs lines 14-24 is `validHands`. -/
def validHands (hands : List String) : List PokerHand :=
  hands.filterMap (fun h => (PokerHand.new h).toOption)

/-- Under the sort of lib.rs line 26-27: descending, highest hand first. -/
def sortedHands (hands : List String) : List PokerHand :=
  ((validHands hands).insertionSort handLe).reverse

def winning_hands (hands : List String) : Option (List String) :=
  let sorted := sortedHands hands
  match sorted with
  | [] => none
  | [h] => some [h.hand_handle]
  | top :: rest =>
    some (top.hand_handle ::
      (rest.takeWhile (fun h => PokerHand.eq h top)).map (fun h => h.hand_handle))



theorem Ranks.val_inj (a b : Ranks) : a.val = b.val ↔ a = b := by
  constructor
  · revert a b; decide
  · intro h; rw [h]

theorem Ranks.eq_ace_iff (r : Ranks) : r = Ranks.Ace ↔ r.val = 14 := by revert r; decide
theorem Ranks.eq_five_iff (r : Ranks) : r = Ranks.Five ↔ r.val = 5 := by revert r; decide
theorem Ranks.eq_four_iff (r : Ranks) : r = Ranks.Four ↔ r.val = 4 := by revert r; decide
theorem Ranks.eq_three_iff (r : Ranks) : r = Ranks.Three ↔ r.val = 3 := by revert r; decide
theorem Ranks.eq_two_iff (r : Ranks) : r = Ranks.Two ↔ r.val = 2 := by revert r; decide

theorem check_straight_bridge (c0 c1 c2 c3 c4 : Card) (hr : PokerHandRanks) :
    check_straightR ([c0, c1, c2, c3, c4].map (fun c => c.rank.val)) hr =
      ((check_straight [c0, c1, c2, c3, c4] hr).1,
       (check_straight [c0, c1, c2, c3, c4] hr).2.1,
       (check_straight [c0, c1, c2, c3, c4] hr).2.2.map (fun c => c.rank.val)) := by
  simp only [check_straight, check_straightR, List.map,
    Ranks.eq_ace_iff, Ranks.eq_five_iff, Ranks.eq_four_iff, Ranks.eq_three_iff, Ranks.eq_two_iff]
  split_ifs <;> rfl

theorem check_four_bridge (c0 c1 c2 c3 c4 : Card) (hr : PokerHandRanks) :
    check_four_of_a_kindR ([c0, c1, c2, c3, c4].map (fun c => c.rank.val)) hr =
      ((check_four_of_a_kind [c0, c1, c2, c3, c4] hr).1,
       (check_four_of_a_kind [c0, c1, c2, c3, c4] hr).2.1,
       (check_four_of_a_kind [c0, c1, c2, c3, c4] hr).2.2.map (fun c => c.rank.val)) := by
  simp only [check_four_of_a_kind, check_four_of_a_kindR, List.map, ← Ranks.val_inj]
  split_ifs <;> rfl

theorem check_three_bridge (c0 c1 c2 c3 c4 : Card) (hr : PokerHandRanks) :
    check_three_and_full_houseR ([c0, c1, c2, c3, c4].map (fun c => c.rank.val)) hr =
      ((check_three_and_full_house [c0, c1, c2, c3, c4] hr).1,
       (check_three_and_full_house [c0, c1, c2, c3, c4] hr).2.1,
       (check_three_and_full_house [c0, c1, c2, c3, c4] hr).2.2.map (fun c => c.rank.val)) := by
  simp only [check_three_and_full_house, check_three_and_full_houseR, List.map, ← Ranks.val_inj]
  split_ifs <;> rfl

theorem check_pairs_bridge (c0 c1 c2 c3 c4 : Card) (hr : PokerHandRanks) :
    check_one_and_two_pairsR ([c0, c1, c2, c3, c4].map (fun c => c.rank.val)) hr =
      ((check_one_and_two_pairs [c0, c1, c2, c3, c4] hr).1,
       (check_one_and_two_pairs [c0, c1, c2, c3, c4] hr).2.1,
       (check_one_and_two_pairs [c0, c1, c2, c3, c4] hr).2.2.map (fun c => c.rank.val)) := by
  simp only [check_one_and_two_pairs, check_one_and_two_pairsR, List.map, ← Ranks.val_inj]
  split_ifs <;> rfl

theorem check_straight_false (c0 c1 c2 c3 c4 : Card) (hr : PokerHandRanks)
    (h : (check_straight [c0, c1, c2, c3, c4] hr).1 = false) :
    check_straight [c0, c1, c2, c3, c4] hr = (false, hr, [c0, c1, c2, c3, c4]) := by
  unfold check_straight at h ⊢
  dsimp only at h ⊢
  split_ifs at h with h1
  all_goals simp_all

theorem check_four_false (c0 c1 c2 c3 c4 : Card) (hr : PokerHandRanks)
    (h : (check_four_of_a_kind [c0, c1, c2, c3, c4] hr).1 = false) :
    check_four_of_a_kind [c0, c1, c2, c3, c4] hr = (false, hr, [c0, c1, c2, c3, c4]) := by
  unfold check_four_of_a_kind at h ⊢
  dsimp only at h ⊢
  split_ifs at h with h1
  all_goals simp_all

theorem check_three_false (c0 c1 c2 c3 c4 : Card) (hr : PokerHandRanks)
    (h : (check_three_and_full_house [c0, c1, c2, c3, c4] hr).1 = false) :
    check_three_and_full_house [c0, c1, c2, c3, c4] hr = (false, hr, [c0, c1, c2, c3, c4]) := by
  unfold check_three_and_full_house at h ⊢
  dsimp only at h ⊢
  split_ifs at h with h1 h2 h3
  all_goals try simp at h
  rw [if_neg h1, if_neg h3]
  rw [if_neg (show ¬(c2.rank = c3.rank ∧ c2.rank = c4.rank) by assumption)]

theorem classify_bridge (c0 c1 c2 c3 c4 : Card) :
    classifyR ([c0, c1, c2, c3, c4].map (fun c => c.rank.val)) (check_flush [c0, c1, c2, c3, c4]) =
      ((classify [c0, c1, c2, c3, c4]).1,
       (classify [c0, c1, c2, c3, c4]).2.map (fun c => c.rank.val)) := by
  simp only [classify, classifyR]
  rw [check_straight_bridge]
  rcases hs : check_straight [c0, c1, c2, c3, c4]
      (if check_flush [c0, c1, c2, c3, c4] then PokerHandRanks.Flush
        else PokerHandRanks.HighCard) with ⟨b1, hr1, l1⟩
  cases b1
  · have hfs := check_straight_false c0 c1 c2 c3 c4 _ (by rw [hs])
    rw [hs] at hfs
    simp only [Prod.mk.injEq, true_and] at hfs
    obtain ⟨rfl, rfl⟩ := hfs
    dsimp only
    rw [check_four_bridge]
    rcases hf : check_four_of_a_kind [c0, c1, c2, c3, c4] _ with ⟨b2, hr2, l2⟩
    cases b2
    · have hff := check_four_false c0 c1 c2 c3 c4 _ (by rw [hf])
      rw [hf] at hff
      simp only [Prod.mk.injEq, true_and] at hff
      obtain ⟨rfl, rfl⟩ := hff
      dsimp only
      rw [check_three_bridge]
      rcases ht : check_three_and_full_house [c0, c1, c2, c3, c4] _ with ⟨b3, hr3, l3⟩
      cases b3
      · have htf := check_three_false c0 c1 c2 c3 c4 _ (by rw [ht])
        rw [ht] at htf
        simp only [Prod.mk.injEq, true_and] at htf
        obtain ⟨rfl, rfl⟩ := htf
        dsimp only
        rw [check_pairs_bridge]
      · rfl
    · rfl
  · rfl


/-- Innermost three loops of the universal check, at fixed first two
indices: every nonincreasing completion of the tuple. -/
def forAllSortedAt2 (i0 i1 : Nat) (f : Nat → Nat → Nat → Nat → Nat → Bool) : Bool :=
  (List.range (i1 + 1)).all fun i2 =>
    (List.range (i2 + 1)).all fun i3 =>
      (List.range (i3 + 1)).all fun i4 =>
        f (i0 + 2) (i1 + 2) (i2 + 2) (i3 + 2) (i4 + 2)

/-- The universal check at a fixed first index. -/
def forAllSortedAt (i0 : Nat) (f : Nat → Nat → Nat → Nat → Nat → Bool) : Bool :=
  (List.range (i0 + 1)).all fun i1 => forAllSortedAt2 i0 i1 f

/-- Executable universal check over every nonincreasing 5-tuple of rank
values in 2..14, the shape every descending-sorted rank tuple takes. -/
def forAllSorted (f : Nat → Nat → Nat → Nat → Nat → Bool) : Bool :=
  (List.range 13).all fun i0 => forAllSortedAt i0 f

theorem forAllSorted_spec (f : Nat → Nat → Nat → Nat → Nat → Bool)
    (h : forAllSorted f = true) (r0 r1 r2 r3 r4 : Nat)
    (h0 : r0 ≤ 14) (h1 : r1 ≤ r0) (h2 : r2 ≤ r1) (h3 : r3 ≤ r2) (h4 : r4 ≤ r3)
    (h5 : 2 ≤ r4) :
    f r0 r1 r2 r3 r4 = true := by
  simp only [forAllSorted, forAllSortedAt, forAllSortedAt2, List.all_eq_true,
    List.mem_range] at h
  have e0 : r0 - 2 + 2 = r0 := by omega
  have e1 : r1 - 2 + 2 = r1 := by omega
  have e2 : r2 - 2 + 2 = r2 := by omega
  have e3 : r3 - 2 + 2 = r3 := by omega
  have e4 : r4 - 2 + 2 = r4 := by omega
  have := h (r0 - 2) (by omega) (r1 - 2) (by omega) (r2 - 2) (by omega)
    (r3 - 2) (by omega) (r4 - 2) (by omega)
  rwa [e0, e1, e2, e3, e4] at this

/-- Per-tuple check for claims C1 and C2: on every feasible sorted rank
tuple, the classifier's category agrees with the spec's prioritized
category, and the classifier's output arrangement satisfies the
per-category scoring order.  Tuples that no duplicate-free hand can
produce (all five ranks equal, or a repeated rank in a flush) are
skipped. -/
def tupleOkAt (r0 r1 r2 r3 r4 : Nat) : Bool :=
  (if r0 = r4 then true
    else
      match classifyR [r0, r1, r2, r3, r4] false with
      | (cat, out) =>
        (cat == specCategoryR [r0, r1, r2, r3, r4] false) && arrangementOk cat out)
  && (if r1 < r0 ∧ r2 < r1 ∧ r3 < r2 ∧ r4 < r3 then
        match classifyR [r0, r1, r2, r3, r4] true with
        | (cat, out) =>
          (cat == specCategoryR [r0, r1, r2, r3, r4] true) && arrangementOk cat out
      else true)

set_option maxHeartbeats 1600000 in
theorem tupleOk_0_0 : forAllSortedAt2 0 0 tupleOkAt = true := by decide

theorem tupleOkTop_0 : forAllSortedAt 0 tupleOkAt = true := by
  unfold forAllSortedAt
  rw [show (List.range (0 + 1) : List Nat) = [0] from rfl]
  simp only [List.all_cons, List.all_nil, tupleOk_0_0, Bool.true_and, Bool.and_self]

set_option maxHeartbeats 1600000 in
theorem tupleOk_1_0 : forAllSortedAt2 1 0 tupleOkAt = true := by decide

set_option maxHeartbeats 1600000 in
theorem tupleOk_1_1 : forAllSortedAt2 1 1 tupleOkAt = true := by decide

theorem tupleOkTop_1 : forAllSortedAt 1 tupleOkAt = true := by
  unfold forAllSortedAt
  rw [show (List.range (1 + 1) : List Nat) = [0, 1] from rfl]
  simp only [List.all_cons, List.all_nil, tupleOk_1_0, tupleOk_1_1, Bool.true_and, Bool.and_self]

set_option maxHeartbeats 1600000 in
theorem tupleOk_2_0 : forAllSortedAt2 2 0 tupleOkAt = true := by decide

set_option maxHeartbeats 1600000 in
theorem tupleOk_2_1 : forAllSortedAt2 2 1 tupleOkAt = true := by decide

set_option maxHeartbeats 1600000 in
theorem tupleOk_2_2 : forAllSortedAt2 2 2 tupleOkAt = true := by decide

theorem tupleOkTop_2 : forAllSortedAt 2 tupleOkAt = true := by
  unfold forAllSortedAt
  rw [show (List.range (2 + 1) : List Nat) = [0, 1, 2] from rfl]
  simp only [List.all_cons, List.all_nil, tupleOk_2_0, tupleOk_2_1, tupleOk_2_2, Bool.true_and, Bool.and_self]

set_option maxHeartbeats 1600000 in
theorem tupleOk_3_0 : forAllSortedAt2 3 0 tupleOkAt = true := by decide

set_option maxHeartbeats 1600000 in
theorem tupleOk_3_1 : forAllSortedAt2 3 1 tupleOkAt = true := by decide

set_option maxHeartbeats 1600000 in
theorem tupleOk_3_2 : forAllSortedAt2 3 2 tupleOkAt = true := by decide

set_option maxHeartbeats 1600000 in
theorem tupleOk_3_3 : forAllSortedAt2 3 3 tupleOkAt = true := by decide

theorem tupleOkTop_3 : forAllSortedAt 3 tupleOkAt = true := by
  unfold forAllSortedAt
  rw [show (List.range (3 + 1) : List Nat) = [0, 1, 2, 3] from rfl]
  simp only [List.all_cons, List.all_nil, tupleOk_3_0, tupleOk_3_1, tupleOk_3_2, tupleOk_3_3, Bool.true_and, Bool.and_self]

set_option maxHeartbeats 1600000 in
theorem tupleOk_4_0 : forAllSortedAt2 4 0 tupleOkAt = true := by decide

set_option maxHeartbeats 1600000 in
theorem tupleOk_4_1 : forAllSortedAt2 4 1 tupleOkAt = true := by decide

set_option maxHeartbeats 1600000 in
theorem tupleOk_4_2 : forAllSortedAt2 4 2 tupleOkAt = true := by decide

set_option maxHeartbeats 1600000 in
theorem tupleOk_4_3 : forAllSortedAt2 4 3 tupleOkAt = true := by decide

set_option maxHeartbeats 1600000 in
theorem tupleOk_4_4 : forAllSortedAt2 4 4 tupleOkAt = true := by decide

theorem tupleOkTop_4 : forAllSortedAt 4 tupleOkAt = true := by
  unfold forAllSortedAt
  rw [show (List.range (4 + 1) : List Nat) = [0, 1, 2, 3, 4] from rfl]
  simp only [List.all_cons, List.all_nil, tupleOk_4_0, tupleOk_4_1, tupleOk_4_2, tupleOk_4_3, tupleOk_4_4, Bool.true_and, Bool.and_self]

set_option maxHeartbeats 1600000 in
theorem tupleOk_5_0 : forAllSortedAt2 5 0 tupleOkAt = true := by decide

set_option maxHeartbeats 1600000 in
theorem tupleOk_5_1 : forAllSortedAt2 5 1 tupleOkAt = true := by decide

set_option maxHeartbeats 1600000 in
theorem tupleOk_5_2 : forAllSortedAt2 5 2 tupleOkAt = true := by decide

set_option maxHeartbeats 1600000 in
theorem tupleOk_5_3 : forAllSortedAt2 5 3 tupleOkAt = true := by decide

set_option maxHeartbeats 1600000 in
theorem tupleOk_5_4 : forAllSortedAt2 5 4 tupleOkAt = true := by decide

set_option maxHeartbeats 1600000 in
theorem tupleOk_5_5 : forAllSortedAt2 5 5 tupleOkAt = true := by decide

theorem tupleOkTop_5 : forAllSortedAt 5 tupleOkAt = true := by
  unfold forAllSortedAt
  rw [show (List.range (5 + 1) : List Nat) = [0, 1, 2, 3, 4, 5] from rfl]
  simp only [List.all_cons, List.all_nil, tupleOk_5_0, tupleOk_5_1, tupleOk_5_2, tupleOk_5_3, tupleOk_5_4, tupleOk_5_5, Bool.true_and, Bool.and_self]

set_option maxHeartbeats 1600000 in
theorem tupleOk_6_0 : forAllSortedAt2 6 0 tupleOkAt = true := by decide

set_option maxHeartbeats 1600000 in
theorem tupleOk_6_1 : forAllSortedAt2 6 1 tupleOkAt = true := by decide

set_option maxHeartbeats 1600000 in
theorem tupleOk_6_2 : forAllSortedAt2 6 2 tupleOkAt = true := by decide

set_option maxHeartbeats 1600000 in
theorem tupleOk_6_3 : forAllSortedAt2 6 3 tupleOkAt = true := by decide

set_option maxHeartbeats 1600000 in
theorem tupleOk_6_4 : forAllSortedAt2 6 4 tupleOkAt = true := by decide

set_option maxHeartbeats 1600000 in
theorem tupleOk_6_5 : forAllSortedAt2 6 5 tupleOkAt = true := by decide

set_option maxHeartbeats 1600000 in
theorem tupleOk_6_6 : forAllSortedAt2 6 6 tupleOkAt = true := by decide

theorem tupleOkTop_6 : forAllSortedAt 6 tupleOkAt = true := by
  unfold forAllSortedAt
  rw [show (List.range (6 + 1) : List Nat) = [0, 1, 2, 3, 4, 5, 6] from rfl]
  simp only [List.all_cons, List.all_nil, tupleOk_6_0, tupleOk_6_1, tupleOk_6_2, tupleOk_6_3, tupleOk_6_4, tupleOk_6_5, tupleOk_6_6, Bool.true_and, Bool.and_self]

set_option maxHeartbeats 1600000 in
theorem tupleOk_7_0 : forAllSortedAt2 7 0 tupleOkAt = true := by decide

set_option maxHeartbeats 1600000 in
theorem tupleOk_7_1 : forAllSortedAt2 7 1 tupleOkAt = true := by decide

set_option maxHeartbeats 1600000 in
theorem tupleOk_7_2 : forAllSortedAt2 7 2 tupleOkAt = true := by decide

set_option maxHeartbeats 1600000 in
theorem tupleOk_7_3 : forAllSortedAt2 7 3 tupleOkAt = true := by decide

set_option maxHeartbeats 1600000 in
theorem tupleOk_7_4 : forAllSortedAt2 7 4 tupleOkAt = true := by decide

set_option maxHeartbeats 1600000 in
theorem tupleOk_7_5 : forAllSortedAt2 7 5 tupleOkAt = true := by decide

set_option maxHeartbeats 1600000 in
theorem tupleOk_7_6 : forAllSortedAt2 7 6 tupleOkAt = true := by decide

set_option maxHeartbeats 1600000 in
theorem tupleOk_7_7 : forAllSortedAt2 7 7 tupleOkAt = true := by decide

theorem tupleOkTop_7 : forAllSortedAt 7 tupleOkAt = true := by
  unfold forAllSortedAt
  rw [show (List.range (7 + 1) : List Nat) = [0, 1, 2, 3, 4, 5, 6, 7] from rfl]
  simp only [List.all_cons, List.all_nil, tupleOk_7_0, tupleOk_7_1, tupleOk_7_2, tupleOk_7_3, tupleOk_7_4, tupleOk_7_5, tupleOk_7_6, tupleOk_7_7, Bool.true_and, Bool.and_self]

set_option maxHeartbeats 1600000 in
theorem tupleOk_8_0 : forAllSortedAt2 8 0 tupleOkAt = true := by decide

set_option maxHeartbeats 1600000 in
theorem tupleOk_8_1 : forAllSortedAt2 8 1 tupleOkAt = true := by decide

set_option maxHeartbeats 1600000 in
theorem tupleOk_8_2 : forAllSortedAt2 8 2 tupleOkAt = true := by decide

set_option maxHeartbeats 1600000 in
theorem tupleOk_8_3 : forAllSortedAt2 8 3 tupleOkAt = true := by decide

set_option maxHeartbeats 1600000 in
theorem tupleOk_8_4 : forAllSortedAt2 8 4 tupleOkAt = true := by decide

set_option maxHeartbeats 1600000 in
theorem tupleOk_8_5 : forAllSortedAt2 8 5 tupleOkAt = true := by decide

set_option maxHeartbeats 1600000 in
theorem tupleOk_8_6 : forAllSortedAt2 8 6 tupleOkAt = true := by decide

set_option maxHeartbeats 1600000 in
theorem tupleOk_8_7 : forAllSortedAt2 8 7 tupleOkAt = true := by decide

set_option maxHeartbeats 1600000 in
theorem tupleOk_8_8 : forAllSortedAt2 8 8 tupleOkAt = true := by decide

theorem tupleOkTop_8 : forAllSortedAt 8 tupleOkAt = true := by
  unfold forAllSortedAt
  rw [show (List.range (8 + 1) : List Nat) = [0, 1, 2, 3, 4, 5, 6, 7, 8] from rfl]
  simp only [List.all_cons, List.all_nil, tupleOk_8_0, tupleOk_8_1, tupleOk_8_2, tupleOk_8_3, tupleOk_8_4, tupleOk_8_5, tupleOk_8_6, tupleOk_8_7, tupleOk_8_8, Bool.true_and, Bool.and_self]

set_option maxHeartbeats 1600000 in
theorem tupleOk_9_0 : forAllSortedAt2 9 0 tupleOkAt = true := by decide

set_option maxHeartbeats 1600000 in
theorem tupleOk_9_1 : forAllSortedAt2 9 1 tupleOkAt = true := by decide

set_option maxHeartbeats 1600000 in
theorem tupleOk_9_2 : forAllSortedAt2 9 2 tupleOkAt = true := by decide

set_option maxHeartbeats 1600000 in
theorem tupleOk_9_3 : forAllSortedAt2 9 3 tupleOkAt = true := by decide

set_option maxHeartbeats 1600000 in
theorem tupleOk_9_4 : forAllSortedAt2 9 4 tupleOkAt = true := by decide

set_option maxHeartbeats 1600000 in
theorem tupleOk_9_5 : forAllSortedAt2 9 5 tupleOkAt = true := by decide

set_option maxHeartbeats 1600000 in
theorem tupleOk_9_6 : forAllSortedAt2 9 6 tupleOkAt = true := by decide

set_option maxHeartbeats 1600000 in
theorem tupleOk_9_7 : forAllSortedAt2 9 7 tupleOkAt = true := by decide

set_option maxHeartbeats 1600000 in
theorem tupleOk_9_8 : forAllSortedAt2 9 8 tupleOkAt = true := by decide

set_option maxHeartbeats 1600000 in
theorem tupleOk_9_9 : forAllSortedAt2 9 9 tupleOkAt = true := by decide

theorem tupleOkTop_9 : forAllSortedAt 9 tupleOkAt = true := by
  unfold forAllSortedAt
  rw [show (List.range (9 + 1) : List Nat) = [0, 1, 2, 3, 4, 5, 6, 7, 8, 9] from rfl]
  simp only [List.all_cons, List.all_nil, tupleOk_9_0, tupleOk_9_1, tupleOk_9_2, tupleOk_9_3, tupleOk_9_4, tupleOk_9_5, tupleOk_9_6, tupleOk_9_7, tupleOk_9_8, tupleOk_9_9, Bool.true_and, Bool.and_self]

set_option maxHeartbeats 1600000 in
theorem tupleOk_10_0 : forAllSortedAt2 10 0 tupleOkAt = true := by decide

set_option maxHeartbeats 1600000 in
theorem tupleOk_10_1 : forAllSortedAt2 10 1 tupleOkAt = true := by decide

set_option maxHeartbeats 1600000 in
theorem tupleOk_10_2 : forAllSortedAt2 10 2 tupleOkAt = true := by decide

set_option maxHeartbeats 1600000 in
theorem tupleOk_10_3 : forAllSortedAt2 10 3 tupleOkAt = true := by decide

set_option maxHeartbeats 1600000 in
theorem tupleOk_10_4 : forAllSortedAt2 10 4 tupleOkAt = true := by decide

set_option maxHeartbeats 1600000 in
theorem tupleOk_10_5 : forAllSortedAt2 10 5 tupleOkAt = true := by decide

set_option maxHeartbeats 1600000 in
theorem tupleOk_10_6 : forAllSortedAt2 10 6 tupleOkAt = true := by decide

set_option maxHeartbeats 1600000 in
theorem tupleOk_10_7 : forAllSortedAt2 10 7 tupleOkAt = true := by decide

set_option maxHeartbeats 1600000 in
theorem tupleOk_10_8 : forAllSortedAt2 10 8 tupleOkAt = true := by decide

set_option maxHeartbeats 1600000 in
theorem tupleOk_10_9 : forAllSortedAt2 10 9 tupleOkAt = true := by decide

set_option maxHeartbeats 1600000 in
theorem tupleOk_10_10 : forAllSortedAt2 10 10 tupleOkAt = true := by decide

theorem tupleOkTop_10 : forAllSortedAt 10 tupleOkAt = true := by
  unfold forAllSortedAt
  rw [show (List.range (10 + 1) : List Nat) = [0, 1, 2, 3, 4, 5, 6, 7, 8, 9, 10] from rfl]
  simp only [List.all_cons, List.all_nil, tupleOk_10_0, tupleOk_10_1, tupleOk_10_2, tupleOk_10_3, tupleOk_10_4, tupleOk_10_5, tupleOk_10_6, tupleOk_10_7, tupleOk_10_8, tupleOk_10_9, tupleOk_10_10, Bool.true_and, Bool.and_self]

set_option maxHeartbeats 1600000 in
theorem tupleOk_11_0 : forAllSortedAt2 11 0 tupleOkAt = true := by decide

set_option maxHeartbeats 1600000 in
theorem tupleOk_11_1 : forAllSortedAt2 11 1 tupleOkAt = true := by decide

set_option maxHeartbeats 1600000 in
theorem tupleOk_11_2 : forAllSortedAt2 11 2 tupleOkAt = true := by decide

set_option maxHeartbeats 1600000 in
theorem tupleOk_11_3 : forAllSortedAt2 11 3 tupleOkAt = true := by decide

set_option maxHeartbeats 1600000 in
theorem tupleOk_11_4 : forAllSortedAt2 11 4 tupleOkAt = true := by decide

set_option maxHeartbeats 1600000 in
theorem tupleOk_11_5 : forAllSortedAt2 11 5 tupleOkAt = true := by decide

set_option maxHeartbeats 1600000 in
theorem tupleOk_11_6 : forAllSortedAt2 11 6 tupleOkAt = true := by decide

set_option maxHeartbeats 1600000 in
theorem tupleOk_11_7 : forAllSortedAt2 11 7 tupleOkAt = true := by decide

set_option maxHeartbeats 1600000 in
theorem tupleOk_11_8 : forAllSortedAt2 11 8 tupleOkAt = true := by decide

set_option maxHeartbeats 1600000 in
theorem tupleOk_11_9 : forAllSortedAt2 11 9 tupleOkAt = true := by decide

set_option maxHeartbeats 1600000 in
theorem tupleOk_11_10 : forAllSortedAt2 11 10 tupleOkAt = true := by decide

set_option maxHeartbeats 1600000 in
theorem tupleOk_11_11 : forAllSortedAt2 11 11 tupleOkAt = true := by decide

theorem tupleOkTop_11 : forAllSortedAt 11 tupleOkAt = true := by
  unfold forAllSortedAt
  rw [show (List.range (11 + 1) : List Nat) = [0, 1, 2, 3, 4, 5, 6, 7, 8, 9, 10, 11] from rfl]
  simp only [List.all_cons, List.all_nil, tupleOk_11_0, tupleOk_11_1, tupleOk_11_2, tupleOk_11_3, tupleOk_11_4, tupleOk_11_5, tupleOk_11_6, tupleOk_11_7, tupleOk_11_8, tupleOk_11_9, tupleOk_11_10, tupleOk_11_11, Bool.true_and, Bool.and_self]

set_option maxHeartbeats 1600000 in
theorem tupleOk_12_0 : forAllSortedAt2 12 0 tupleOkAt = true := by decide

set_option maxHeartbeats 1600000 in
theorem tupleOk_12_1 : forAllSortedAt2 12 1 tupleOkAt = true := by decide

set_option maxHeartbeats 1600000 in
theorem tupleOk_12_2 : forAllSortedAt2 12 2 tupleOkAt = true := by decide

set_option maxHeartbeats 1600000 in
theorem tupleOk_12_3 : forAllSortedAt2 12 3 tupleOkAt = true := by decide

set_option maxHeartbeats 1600000 in
theorem tupleOk_12_4 : forAllSortedAt2 12 4 tupleOkAt = true := by decide

set_option maxHeartbeats 1600000 in
theorem tupleOk_12_5 : forAllSortedAt2 12 5 tupleOkAt = true := by decide

set_option maxHeartbeats 1600000 in
theorem tupleOk_12_6 : forAllSortedAt2 12 6 tupleOkAt = true := by decide

set_option maxHeartbeats 1600000 in
theorem tupleOk_12_7 : forAllSortedAt2 12 7 tupleOkAt = true := by decide

set_option maxHeartbeats 1600000 in
theorem tupleOk_12_8 : forAllSortedAt2 12 8 tupleOkAt = true := by decide

set_option maxHeartbeats 1600000 in
theorem tupleOk_12_9 : forAllSortedAt2 12 9 tupleOkAt = true := by decide

set_option maxHeartbeats 1600000 in
theorem tupleOk_12_10 : forAllSortedAt2 12 10 tupleOkAt = true := by decide

set_option maxHeartbeats 1600000 in
theorem tupleOk_12_11 : forAllSortedAt2 12 11 tupleOkAt = true := by decide

set_option maxHeartbeats 1600000 in
theorem tupleOk_12_12 : forAllSortedAt2 12 12 tupleOkAt = true := by decide

theorem tupleOkTop_12 : forAllSortedAt 12 tupleOkAt = true := by
  unfold forAllSortedAt
  rw [show (List.range (12 + 1) : List Nat) = [0, 1, 2, 3, 4, 5, 6, 7, 8, 9, 10, 11, 12] from rfl]
  simp only [List.all_cons, List.all_nil, tupleOk_12_0, tupleOk_12_1, tupleOk_12_2, tupleOk_12_3, tupleOk_12_4, tupleOk_12_5, tupleOk_12_6, tupleOk_12_7, tupleOk_12_8, tupleOk_12_9, tupleOk_12_10, tupleOk_12_11, tupleOk_12_12, Bool.true_and, Bool.and_self]

theorem tupleAllOk : forAllSorted tupleOkAt = true := by
  unfold forAllSorted
  rw [show (List.range 13 : List Nat) = [0, 1, 2, 3, 4, 5, 6, 7, 8, 9, 10, 11, 12] from rfl]
  simp only [List.all_cons, List.all_nil, tupleOkTop_0, tupleOkTop_1, tupleOkTop_2, tupleOkTop_3, tupleOkTop_4, tupleOkTop_5, tupleOkTop_6, tupleOkTop_7, tupleOkTop_8, tupleOkTop_9, tupleOkTop_10, tupleOkTop_11, tupleOkTop_12, Bool.true_and, Bool.and_self]


/-! ### Parser correctness

The well-formed hand strings are characterized: `renderCard` writes the
unique token the regex accepts for a given card, and `parse_hand_str`
succeeds exactly on five rendered cards joined by single spaces. -/

/-- The rank token of a card: `2`-`9`, `10`, `J`, `Q`, `K` or `A`. -/
def rankStr : Ranks → List Char
  | .Two => ['2']
  | .Three => ['3']
  | .Four => ['4']
  | .Five => ['5']
  | .Six => ['6']
  | .Seven => ['7']
  | .Eight => ['8']
  | .Nine => ['9']
  | .Ten => ['1', '0']
  | .Jack => ['J']
  | .Queen => ['Q']
  | .King => ['K']
  | .Ace => ['A']

/-- The suit code of a card: `H`, `S`, `C` or `D`. -/
def suitChar : Suits → Char
  | .Hearts => 'H'
  | .Spades => 'S'
  | .Clubs => 'C'
  | .Diamonds => 'D'

/-- The unique token for a card: rank code immediately followed by the
suit code. -/
def renderCard (c : Card) : List Char := rankStr c.rank ++ [suitChar c.suit]

theorem parse_card_render (c : Card) (rest : List Char) :
    parse_card (renderCard c ++ rest) = some (c, rest) := by
  rcases c with ⟨r, s⟩
  cases r <;> cases s <;> rfl

theorem rankCapture_none (c : Char) (rest0 : List Char)
    (h1 : c ≠ '1') (h2 : c ≠ '2') (h3 : c ≠ '3') (h4 : c ≠ '4') (h5 : c ≠ '5')
    (h6 : c ≠ '6') (h7 : c ≠ '7') (h8 : c ≠ '8') (h9 : c ≠ '9') (hJ : c ≠ 'J')
    (hQ : c ≠ 'Q') (hK : c ≠ 'K') (hA : c ≠ 'A') :
    rankCapture (c :: rest0) = none := by
  simp only [rankCapture]
  rw [if_neg h1, if_neg h2, if_neg h3, if_neg h4, if_neg h5, if_neg h6, if_neg h7,
    if_neg h8, if_neg h9, if_neg hJ, if_neg hQ, if_neg hK, if_neg hA]

theorem rankCapture_some (cs tok rest : List Char)
    (h : rankCapture cs = some (tok, rest)) :
    ∃ r : Ranks, tok = rankStr r ∧ cs = rankStr r ++ rest := by
  rcases cs with _ | ⟨c, rest0⟩
  · cases h
  by_cases hx1 : c = '1'
  · subst hx1
    rcases rest0 with _ | ⟨c2, rest2⟩
    · rw [show rankCapture ['1'] = none from rfl] at h; cases h
    by_cases hx0 : c2 = '0'
    · subst hx0
      rw [show rankCapture ('1' :: '0' :: rest2) = some (['1', '0'], rest2) from rfl] at h
      injection Option.some.inj h with ha hb
      subst ha; subst hb
      exact ⟨.Ten, rfl, rfl⟩
    · rw [show rankCapture ('1' :: c2 :: rest2) =
            (if c2 = '0' then some (['1', '0'], rest2) else none) from rfl] at h
      rw [if_neg hx0] at h; cases h
  by_cases hx2 : c = '2'
  · subst hx2
    rw [show rankCapture ('2' :: rest0) = some (['2'], rest0) from rfl] at h
    injection Option.some.inj h with ha hb
    subst ha; subst hb
    exact ⟨.Two, rfl, rfl⟩
  by_cases hx3 : c = '3'
  · subst hx3
    rw [show rankCapture ('3' :: rest0) = some (['3'], rest0) from rfl] at h
    injection Option.some.inj h with ha hb
    subst ha; subst hb
    exact ⟨.Three, rfl, rfl⟩
  by_cases hx4 : c = '4'
  · subst hx4
    rw [show rankCapture ('4' :: rest0) = some (['4'], rest0) from rfl] at h
    injection Option.some.inj h with ha hb
    subst ha; subst hb
    exact ⟨.Four, rfl, rfl⟩
  by_cases hx5 : c = '5'
  · subst hx5
    rw [show rankCapture ('5' :: rest0) = some (['5'], rest0) from rfl] at h
    injection Option.some.inj h with ha hb
    subst ha; subst hb
    exact ⟨.Five, rfl, rfl⟩
  by_cases hx6 : c = '6'
  · subst hx6
    rw [show rankCapture ('6' :: rest0) = some (['6'], rest0) from rfl] at h
    injection Option.some.inj h with ha hb
    subst ha; subst hb
    exact ⟨.Six, rfl, rfl⟩
  by_cases hx7 : c = '7'
  · subst hx7
    rw [show rankCapture ('7' :: rest0) = some (['7'], rest0) from rfl] at h
    injection Option.some.inj h with ha hb
    subst ha; subst hb
    exact ⟨.Seven, rfl, rfl⟩
  by_cases hx8 : c = '8'
  · subst hx8
    rw [show rankCapture ('8' :: rest0) = some (['8'], rest0) from rfl] at h
    injection Option.some.inj h with ha hb
    subst ha; subst hb
    exact ⟨.Eight, rfl, rfl⟩
  by_cases hx9 : c = '9'
  · subst hx9
    rw [show rankCapture ('9' :: rest0) = some (['9'], rest0) from rfl] at h
    injection Option.some.inj h with ha hb
    subst ha; subst hb
    exact ⟨.Nine, rfl, rfl⟩
  by_cases hx10 : c = 'J'
  · subst hx10
    rw [show rankCapture ('J' :: rest0) = some (['J'], rest0) from rfl] at h
    injection Option.some.inj h with ha hb
    subst ha; subst hb
    exact ⟨.Jack, rfl, rfl⟩
  by_cases hx11 : c = 'Q'
  · subst hx11
    rw [show rankCapture ('Q' :: rest0) = some (['Q'], rest0) from rfl] at h
    injection Option.some.inj h with ha hb
    subst ha; subst hb
    exact ⟨.Queen, rfl, rfl⟩
  by_cases hx12 : c = 'K'
  · subst hx12
    rw [show rankCapture ('K' :: rest0) = some (['K'], rest0) from rfl] at h
    injection Option.some.inj h with ha hb
    subst ha; subst hb
    exact ⟨.King, rfl, rfl⟩
  by_cases hx13 : c = 'A'
  · subst hx13
    rw [show rankCapture ('A' :: rest0) = some (['A'], rest0) from rfl] at h
    injection Option.some.inj h with ha hb
    subst ha; subst hb
    exact ⟨.Ace, rfl, rfl⟩
  rw [rankCapture_none c rest0 hx1 hx2 hx3 hx4 hx5 hx6 hx7 hx8 hx9 hx10 hx11 hx12 hx13] at h
  cases h

theorem suitClass_some (c : Char) (h : suitClass c = true) :
    ∃ su : Suits, c = suitChar su := by
  unfold suitClass at h
  simp only [Bool.or_eq_true, decide_eq_true_eq] at h
  rcases h with ((h | h) | h) | h
  · exact ⟨.Hearts, h⟩
  · exact ⟨.Spades, h⟩
  · exact ⟨.Clubs, h⟩
  · exact ⟨.Diamonds, h⟩

theorem convert_render (r : Ranks) (su : Suits) :
    convert_strings_to_card (rankStr r) [suitChar su] = some (Card.new r su) := by
  cases r <;> cases su <;> rfl

theorem parse_card_some (cs : List Char) (c : Card) (rest : List Char)
    (h : parse_card cs = some (c, rest)) : cs = renderCard c ++ rest := by
  unfold parse_card at h
  split at h
  · rename_i rtok sc rest2 heq
    split_ifs at h with hsu
    obtain ⟨r, rfl, hcs⟩ := rankCapture_some cs rtok (sc :: rest2) heq
    obtain ⟨su, rfl⟩ := suitClass_some sc hsu
    rw [convert_render] at h
    injection Option.some.inj h with h1 h2
    subst h1; subst h2
    simpa [renderCard] using hcs
  · cases h

theorem parse_card_sp_render (c : Card) (rest : List Char) :
    parse_card_sp (renderCard c ++ ' ' :: rest) = some (c, rest) := by
  unfold parse_card_sp
  rw [parse_card_render]
  rfl

theorem parse_card_sp_some (cs : List Char) (c : Card) (rest : List Char)
    (h : parse_card_sp cs = some (c, rest)) : cs = renderCard c ++ ' ' :: rest := by
  unfold parse_card_sp at h
  split at h
  · rename_i c' rest' heq
    split at h
    · cases h
    · rename_i c2 rest2
      split_ifs at h with hsp
      injection Option.some.inj h with ha hb
      subst hsp
      rw [← ha, ← hb]
      exact parse_card_some cs c' (' ' :: rest2) heq
  · cases h

/-- Characterization of a successful parse: the parsed cards and the exact
shape of the input string. -/
theorem parse_hand_str_some (s : String) (l : List Card)
    (h : parse_hand_str s = some l) :
    ∃ c1 c2 c3 c4 c5 : Card,
      l = [c1, c2, c3, c4, c5] ∧
      s.data = renderCard c1 ++ ' ' :: (renderCard c2 ++ ' ' :: (renderCard c3 ++ ' ' ::
        (renderCard c4 ++ ' ' :: renderCard c5))) := by
  unfold parse_hand_str at h
  split at h
  case _ c1 r1 heq1 =>
    split at h
    case _ c2 r2 heq2 =>
      split at h
      case _ c3 r3 heq3 =>
        split at h
        case _ c4 r4 heq4 =>
          split at h
          case _ c5 rest5 heq5 =>
            split at h
            case _ =>
              have hl := Option.some.inj h
              subst hl
              refine ⟨c1, c2, c3, c4, c5, rfl, ?_⟩
              rw [parse_card_sp_some s.data c1 r1 heq1,
                parse_card_sp_some r1 c2 r2 heq2,
                parse_card_sp_some r2 c3 r3 heq3,
                parse_card_sp_some r3 c4 r4 heq4]
              have h5 := parse_card_some r4 c5 [] heq5
              rw [List.append_nil] at h5
              rw [h5]
            case _ => cases h
          case _ => cases h
        case _ => cases h
      case _ => cases h
    case _ => cases h
  case _ => cases h

/-- Converse: a string of exactly five rendered cards joined by single
spaces parses to those cards. -/
theorem parse_hand_str_render (s : String) (c1 c2 c3 c4 c5 : Card)
    (hs : s.data = renderCard c1 ++ ' ' :: (renderCard c2 ++ ' ' :: (renderCard c3 ++ ' ' ::
      (renderCard c4 ++ ' ' :: renderCard c5)))) :
    parse_hand_str s = some [c1, c2, c3, c4, c5] := by
  unfold parse_hand_str
  rw [hs]
  rw [parse_card_sp_render]
  dsimp only
  rw [parse_card_sp_render]
  dsimp only
  rw [parse_card_sp_render]
  dsimp only
  rw [parse_card_sp_render]
  dsimp only
  rw [show renderCard c5 = renderCard c5 ++ [] from (List.append_nil _).symm, parse_card_render]


/-! ### Facts about sorting, duplicates and feasible rank tuples -/

theorem bool_eq_of_iff {a b : Bool} (h : a = true ↔ b = true) : a = b := by
  cases a <;> cases b <;> simp_all

theorem check_dup_iff (l : List Card) :
    check_for_duplicate_cards l = true ↔ ¬ l.Nodup := by
  induction l with
  | nil => simp [check_for_duplicate_cards]
  | cons c rest ih =>
    simp only [check_for_duplicate_cards, Bool.or_eq_true, List.any_eq_true, beq_iff_eq,
      List.nodup_cons, ih, not_and_or, not_not]
    constructor
    · rintro (⟨x, hx, rfl⟩ | hdup)
      · exact Or.inl hx
      · exact Or.inr hdup
    · rintro (hc | hdup)
      · exact Or.inl ⟨c, hc, rfl⟩
      · exact Or.inr hdup

theorem sortCards_perm (l : List Card) : List.Perm (sortCards l) l :=
  (List.reverse_perm _).trans (List.perm_insertionSort _ l)

theorem sortCards_sorted (l : List Card) :
    (sortCards l).Pairwise (fun a b => b.rank.val ≤ a.rank.val) := by
  unfold sortCards
  rw [List.pairwise_reverse]
  exact List.sorted_insertionSort cardLe l

theorem list_len5 {α : Type} (l : List α) (h : l.length = 5) :
    ∃ a b c d e : α, l = [a, b, c, d, e] := by
  rcases l with _ | ⟨a, _ | ⟨b, _ | ⟨c, _ | ⟨d, _ | ⟨e, _ | ⟨f, t⟩⟩⟩⟩⟩⟩ <;>
    first
      | exact ⟨a, b, c, d, e, rfl⟩
      | simp_all

theorem suits_not_five_distinct : ∀ s0 s1 s2 s3 s4 : Suits,
    ¬(s0 ≠ s1 ∧ s0 ≠ s2 ∧ s0 ≠ s3 ∧ s0 ≠ s4 ∧ s1 ≠ s2 ∧ s1 ≠ s3 ∧ s1 ≠ s4 ∧
      s2 ≠ s3 ∧ s2 ≠ s4 ∧ s3 ≠ s4) := by decide

theorem ranks_val_le : ∀ r : Ranks, r.val ≤ 14 := by decide

theorem ranks_two_le : ∀ r : Ranks, 2 ≤ r.val := by decide

/-- Modelled from the spec: "all five cards share one suit", stated on all
pairs so that it does not depend on the order of the cards. -/
def specFlushCards (cs : List Card) : Bool :=
  cs.all (fun x => cs.all (fun y => x.suit == y.suit))

theorem specFlushCards_perm {l l' : List Card} (hp : List.Perm l l') :
    specFlushCards l = specFlushCards l' := by
  apply bool_eq_of_iff
  simp only [specFlushCards, List.all_eq_true, beq_iff_eq]
  constructor
  · intro h x hx y hy
    exact h x (hp.mem_iff.mpr hx) y (hp.mem_iff.mpr hy)
  · intro h x hx y hy
    exact h x (hp.mem_iff.mp hx) y (hp.mem_iff.mp hy)

theorem check_flush_eq_spec (d0 d1 d2 d3 d4 : Card) :
    check_flush [d0, d1, d2, d3, d4] = specFlushCards [d0, d1, d2, d3, d4] := by
  simp only [check_flush, specFlushCards, List.all_cons, List.all_nil, Bool.and_true]
  generalize d0.suit = s0
  generalize d1.suit = s1
  generalize d2.suit = s2
  generalize d3.suit = s3
  generalize d4.suit = s4
  revert s0 s1 s2 s3 s4
  decide

/-- The specification's category of a hand, from the card list alone:
flush bit and rank multiset through the prioritized cascade. -/
def specCategory (cs : List Card) : PokerHandRanks :=
  specCategoryR (cs.map (fun c => c.rank.val)) (specFlushCards cs)

theorem specCategoryR_congr {rs rs' : List Nat} (fl : Bool)
    (h : sortDescNat rs = sortDescNat rs') : specCategoryR rs fl = specCategoryR rs' fl := by
  unfold specCategoryR
  rw [h]

theorem sortDescNat_perm_eq {l l' : List Nat} (h : List.Perm l l') : sortDescNat l = sortDescNat l' := by
  unfold sortDescNat
  congr 1
  exact List.eq_of_perm_of_sorted
    ((List.perm_insertionSort _ l).trans (h.trans (List.perm_insertionSort _ l').symm))
    (List.sorted_insertionSort (fun a b : Nat => a ≤ b) l)
    (List.sorted_insertionSort (fun a b : Nat => a ≤ b) l')

theorem sortDescNat_of_sorted {l : List Nat} (h : l.Pairwise (fun a b => b ≤ a)) :
    sortDescNat l = l := by
  unfold sortDescNat
  have hrev : l.reverse.Pairwise (· ≤ ·) := by
    rw [List.pairwise_reverse]
    exact h
  have : l.insertionSort (· ≤ ·) = l.reverse := by
    exact List.eq_of_perm_of_sorted
      ((List.perm_insertionSort _ l).trans (List.reverse_perm l).symm)
      (List.sorted_insertionSort (fun a b : Nat => a ≤ b) l) hrev
  rw [this, List.reverse_reverse]

theorem card_eq_of (a b : Card) (hr : a.rank = b.rank) (hs : a.suit = b.suit) : a = b := by
  cases a; cases b; cases hr; cases hs; rfl

theorem new_ok_fields (s : String) (h : PokerHand) (hnew : PokerHand.new s = .ok h) :
    ∃ parsed, parse_hand_str s = some parsed ∧
      h.hand_handle = s ∧
      check_for_duplicate_cards (sortCards parsed) = false ∧
      h.hand_rank = (classify (sortCards parsed)).1 ∧
      h.cards = (classify (sortCards parsed)).2 := by
  unfold PokerHand.new at hnew
  split at hnew
  · cases hnew
  · rename_i parsed hp
    dsimp only at hnew
    split_ifs at hnew with hdup
    have hok := Except.ok.inj hnew
    subst hok
    exact ⟨parsed, hp, rfl, by simpa using hdup, rfl, rfl⟩

/-- The central fact behind claims C1 and C2: a successfully constructed
hand's category equals the specification's prioritized category, and its
stored cards are arranged in the per-category scoring order. -/
theorem classified_hand_spec (s : String) (h : PokerHand) (parsed : List Card)
    (hnew : PokerHand.new s = .ok h) (hp : parse_hand_str s = some parsed) :
    h.hand_rank = specCategoryR (parsed.map (fun c => c.rank.val)) (specFlushCards parsed)
    ∧ arrangementOk h.hand_rank (h.cards.map (fun c => c.rank.val)) = true := by
  obtain ⟨parsed', hp', hhandle, hdup, hrank, hcards⟩ := new_ok_fields s h hnew
  rw [hp] at hp'
  have hpe := Option.some.inj hp'
  subst hpe
  obtain ⟨c1, c2, c3, c4, c5, hl, -⟩ := parse_hand_str_some s parsed hp
  have hlen : parsed.length = 5 := by rw [hl]; rfl
  have hslen : (sortCards parsed).length = 5 := by
    rw [(sortCards_perm parsed).length_eq, hlen]
  obtain ⟨d0, d1, d2, d3, d4, hsort⟩ := list_len5 (sortCards parsed) hslen
  -- adjacent descending rank values
  have hsorted := sortCards_sorted parsed
  rw [hsort] at hsorted
  have h01 : d1.rank.val ≤ d0.rank.val :=
    List.rel_of_pairwise_cons hsorted (List.mem_cons_self d1 _)
  have h12 : d2.rank.val ≤ d1.rank.val :=
    List.rel_of_pairwise_cons hsorted.of_cons (List.mem_cons_self d2 _)
  have h23 : d3.rank.val ≤ d2.rank.val :=
    List.rel_of_pairwise_cons hsorted.of_cons.of_cons (List.mem_cons_self d3 _)
  have h34 : d4.rank.val ≤ d3.rank.val :=
    List.rel_of_pairwise_cons hsorted.of_cons.of_cons.of_cons (List.mem_cons_self d4 _)
  -- the five cards are pairwise distinct
  have hnd : ([d0, d1, d2, d3, d4] : List Card).Nodup := by
    rw [← hsort]
    by_contra hcon
    have h2 := (check_dup_iff (sortCards parsed)).mpr hcon
    rw [hdup] at h2
    exact Bool.false_ne_true h2
  simp only [List.nodup_cons, List.mem_cons, List.mem_singleton, List.not_mem_nil,
    not_or, or_false] at hnd
  obtain ⟨⟨n01, n02, n03, n04⟩, ⟨n12, n13, n14⟩, ⟨n23, n24⟩, n34, -⟩ := hnd
  -- no rank occurs five times
  have hne : d0.rank.val ≠ d4.rank.val := by
    intro hEq
    have e01 : d0.rank = d1.rank := (Ranks.val_inj _ _).mp (by omega)
    have e12 : d1.rank = d2.rank := (Ranks.val_inj _ _).mp (by omega)
    have e23 : d2.rank = d3.rank := (Ranks.val_inj _ _).mp (by omega)
    have e34 : d3.rank = d4.rank := (Ranks.val_inj _ _).mp (by omega)
    refine suits_not_five_distinct d0.suit d1.suit d2.suit d3.suit d4.suit
      ⟨?_, ?_, ?_, ?_, ?_, ?_, ?_, ?_, ?_, ?_⟩ <;> intro hs
    · exact n01 (card_eq_of _ _ e01 hs)
    · exact n02 (card_eq_of _ _ (e01.trans e12) hs)
    · exact n03 (card_eq_of _ _ ((e01.trans e12).trans e23) hs)
    · exact n04 (card_eq_of _ _ (((e01.trans e12).trans e23).trans e34) hs)
    · exact n12 (card_eq_of _ _ e12 hs)
    · exact n13 (card_eq_of _ _ (e12.trans e23) hs)
    · exact n14 (card_eq_of _ _ ((e12.trans e23).trans e34) hs)
    · exact n23 (card_eq_of _ _ e23 hs)
    · exact n24 (card_eq_of _ _ (e23.trans e34) hs)
    · exact n34 (card_eq_of _ _ e34 hs)
  -- a flush forces strictly descending ranks
  have hstrict : check_flush [d0, d1, d2, d3, d4] = true →
      d1.rank.val < d0.rank.val ∧ d2.rank.val < d1.rank.val ∧
        d3.rank.val < d2.rank.val ∧ d4.rank.val < d3.rank.val := by
    intro hfl
    simp only [check_flush, Bool.and_eq_true, beq_iff_eq] at hfl
    obtain ⟨⟨⟨s01, s02⟩, s03⟩, s04⟩ := hfl
    refine ⟨?_, ?_, ?_, ?_⟩
    · rcases Nat.lt_or_ge d1.rank.val d0.rank.val with hlt | hge
      · exact hlt
      · exact absurd (card_eq_of d0 d1 ((Ranks.val_inj _ _).mp (by omega)) s01) n01
    · rcases Nat.lt_or_ge d2.rank.val d1.rank.val with hlt | hge
      · exact hlt
      · exact absurd (card_eq_of d1 d2 ((Ranks.val_inj _ _).mp (by omega))
          (s01.symm.trans s02)) n12
    · rcases Nat.lt_or_ge d3.rank.val d2.rank.val with hlt | hge
      · exact hlt
      · exact absurd (card_eq_of d2 d3 ((Ranks.val_inj _ _).mp (by omega))
          (s02.symm.trans s03)) n23
    · rcases Nat.lt_or_ge d4.rank.val d3.rank.val with hlt | hge
      · exact hlt
      · exact absurd (card_eq_of d3 d4 ((Ranks.val_inj _ _).mp (by omega))
          (s03.symm.trans s04)) n34
  -- the decided tuple fact
  have htuple := forAllSorted_spec tupleOkAt tupleAllOk
    d0.rank.val d1.rank.val d2.rank.val d3.rank.val d4.rank.val
    (ranks_val_le _) h01 h12 h23 h34 (ranks_two_le _)
  unfold tupleOkAt at htuple
  simp only [Bool.and_eq_true] at htuple
  obtain ⟨ht1, ht2⟩ := htuple
  -- the bridge between the card-level and the rank-level classifier
  have hbr := classify_bridge d0 d1 d2 d3 d4
  simp only [List.map_cons, List.map_nil] at hbr
  -- the spec category over the parsed cards equals the one over the tuple
  have hperm0 : List.Perm ([d0, d1, d2, d3, d4] : List Card) parsed := by
    rw [← hsort]; exact sortCards_perm parsed
  have hflspec : specFlushCards parsed = check_flush [d0, d1, d2, d3, d4] := by
    rw [check_flush_eq_spec]
    exact (specFlushCards_perm hperm0).symm
  have hdesc : ([d0.rank.val, d1.rank.val, d2.rank.val, d3.rank.val, d4.rank.val] :
      List Nat).Pairwise (fun a b => b ≤ a) := by
    constructor
    · intro x hx; fin_cases hx <;> omega
    constructor
    · intro x hx; fin_cases hx <;> omega
    constructor
    · intro x hx; fin_cases hx <;> omega
    constructor
    · intro x hx; fin_cases hx <;> omega
    constructor
    · intro x hx; fin_cases hx
    · exact List.Pairwise.nil
  have hsortNat : sortDescNat (parsed.map (fun c => c.rank.val)) =
      [d0.rank.val, d1.rank.val, d2.rank.val, d3.rank.val, d4.rank.val] := by
    have hperm : List.Perm (parsed.map (fun c => c.rank.val))
        ([d0, d1, d2, d3, d4].map (fun c => c.rank.val)) :=
      (hperm0.map (fun c => c.rank.val)).symm
    rw [sortDescNat_perm_eq hperm]
    simp only [List.map_cons, List.map_nil]
    exact sortDescNat_of_sorted hdesc
  have hspec_eq : specCategoryR (parsed.map (fun c => c.rank.val)) (specFlushCards parsed) =
      specCategoryR [d0.rank.val, d1.rank.val, d2.rank.val, d3.rank.val, d4.rank.val]
        (check_flush [d0, d1, d2, d3, d4]) := by
    rw [hflspec]
    refine specCategoryR_congr _ ?_
    rw [hsortNat]
    exact (sortDescNat_of_sorted hdesc).symm
  -- split on the flush bit
  rcases hb : check_flush [d0, d1, d2, d3, d4]
  · -- not a flush
    rw [if_neg hne] at ht1
    rw [hb] at hbr
    rcases hcl : classifyR
        [d0.rank.val, d1.rank.val, d2.rank.val, d3.rank.val, d4.rank.val] false
      with ⟨cat, out⟩
    rw [hcl] at ht1 hbr
    dsimp only at ht1
    simp only [Bool.and_eq_true, beq_iff_eq] at ht1
    obtain ⟨hcat, harr⟩ := ht1
    have hbr1 : cat = (classify [d0, d1, d2, d3, d4]).1 := congrArg Prod.fst hbr
    have hbr2 : out = (classify [d0, d1, d2, d3, d4]).2.map (fun c => c.rank.val) :=
      congrArg Prod.snd hbr
    constructor
    · rw [hrank, hsort, ← hbr1, hcat, hspec_eq, hb]
    · rw [hrank, hcards, hsort, ← hbr1, ← hbr2]
      exact harr
  · -- a flush
    rw [if_pos (hstrict hb)] at ht2
    rw [hb] at hbr
    rcases hcl : classifyR
        [d0.rank.val, d1.rank.val, d2.rank.val, d3.rank.val, d4.rank.val] true
      with ⟨cat, out⟩
    rw [hcl] at ht2 hbr
    dsimp only at ht2
    simp only [Bool.and_eq_true, beq_iff_eq] at ht2
    obtain ⟨hcat, harr⟩ := ht2
    have hbr1 : cat = (classify [d0, d1, d2, d3, d4]).1 := congrArg Prod.fst hbr
    have hbr2 : out = (classify [d0, d1, d2, d3, d4]).2.map (fun c => c.rank.val) :=
      congrArg Prod.snd hbr
    constructor
    · rw [hrank, hsort, ← hbr1, hcat, hspec_eq, hb]
    · rw [hrank, hcards, hsort, ← hbr1, ← hbr2]
      exact harr




/-! ### The comparator is the key order -/

theorem pokerHandRanks_val_le : ∀ r : PokerHandRanks, r.val ≤ 9 := by decide

theorem pokerHandRanks_val_inj (a b : PokerHandRanks) : a.val = b.val ↔ a = b := by
  constructor
  · revert a b; decide
  · intro h; rw [h]

theorem rankKey_lt (l : List Card) : rankKey l < 759375 := by
  unfold rankKey
  have b0 := ranks_val_le (l.getD 0 defaultCard).rank
  have b1 := ranks_val_le (l.getD 1 defaultCard).rank
  have b2 := ranks_val_le (l.getD 2 defaultCard).rank
  have b3 := ranks_val_le (l.getD 3 defaultCard).rank
  have b4 := ranks_val_le (l.getD 4 defaultCard).rank
  omega

/-- The full scoring key: hand rank above the five card ranks. -/
def keyNat (h : PokerHand) : Nat := h.hand_rank.val * 759375 + rankKey h.cards

theorem compare_add_left (x a b : Nat) : compare (x + a) (x + b) = compare a b := by
  rcases Nat.lt_trichotomy a b with hlt | heq | hgt
  · rw [Nat.compare_eq_lt.mpr hlt, Nat.compare_eq_lt.mpr (by omega)]
  · rw [heq, Nat.compare_eq_eq.mpr rfl, Nat.compare_eq_eq.mpr rfl]
  · rw [Nat.compare_eq_gt.mpr hgt, Nat.compare_eq_gt.mpr (by omega)]

set_option maxHeartbeats 1600000 in
/-- The comparator computes exactly the `Nat` comparison of scoring keys. -/
theorem partial_cmp_eq_compare (a b : PokerHand) :
    PokerHand.partial_cmp a b = some (compare (keyNat a) (keyNat b)) := by
  have hra := pokerHandRanks_val_le a.hand_rank
  have hrb := pokerHandRanks_val_le b.hand_rank
  have hka := rankKey_lt a.cards
  have hkb := rankKey_lt b.cards
  unfold PokerHand.partial_cmp keyNat
  by_cases h1 : a.hand_rank.val < b.hand_rank.val
  case pos =>
    rw [if_pos h1]
    refine congrArg some ?_
    symm
    rw [Nat.compare_eq_lt]
    omega
  rw [if_neg h1]
  by_cases h2 : b.hand_rank.val < a.hand_rank.val
  case pos =>
    rw [if_pos h2]
    refine congrArg some ?_
    symm
    rw [Nat.compare_eq_gt]
    omega
  rw [if_neg h2]
  split
  case _ a0 a1 a2 a3 a4 ta b0 b1 b2 b3 b4 tb hA hB =>
    rw [hA] at hka
    rw [hB] at hkb
    have eA : rankKey (a0 :: a1 :: a2 :: a3 :: a4 :: ta) =
        (((a0.rank.val * 15 + a1.rank.val) * 15 + a2.rank.val) * 15 + a3.rank.val) * 15
          + a4.rank.val := rfl
    have eB : rankKey (b0 :: b1 :: b2 :: b3 :: b4 :: tb) =
        (((b0.rank.val * 15 + b1.rank.val) * 15 + b2.rank.val) * 15 + b3.rank.val) * 15
          + b4.rank.val := rfl
    rw [eA] at hka
    rw [eB] at hkb
    rw [hA, hB, eA, eB]
    have p1 := ranks_val_le a1.rank
    have p2 := ranks_val_le a2.rank
    have p3 := ranks_val_le a3.rank
    have p4 := ranks_val_le a4.rank
    have q1 := ranks_val_le b1.rank
    have q2 := ranks_val_le b2.rank
    have q3 := ranks_val_le b3.rank
    have q4 := ranks_val_le b4.rank
    by_cases hc0 : a0.rank.val < b0.rank.val
    case pos =>
      rw [if_pos hc0]
      refine congrArg some ?_
      symm
      rw [Nat.compare_eq_lt]
      omega
    rw [if_neg hc0]
    by_cases hc1 : b0.rank.val < a0.rank.val
    case pos =>
      rw [if_pos hc1]
      refine congrArg some ?_
      symm
      rw [Nat.compare_eq_gt]
      omega
    rw [if_neg hc1]
    by_cases hc2 : a1.rank.val < b1.rank.val
    case pos =>
      rw [if_pos hc2]
      refine congrArg some ?_
      symm
      rw [Nat.compare_eq_lt]
      omega
    rw [if_neg hc2]
    by_cases hc3 : b1.rank.val < a1.rank.val
    case pos =>
      rw [if_pos hc3]
      refine congrArg some ?_
      symm
      rw [Nat.compare_eq_gt]
      omega
    rw [if_neg hc3]
    by_cases hc4 : a2.rank.val < b2.rank.val
    case pos =>
      rw [if_pos hc4]
      refine congrArg some ?_
      symm
      rw [Nat.compare_eq_lt]
      omega
    rw [if_neg hc4]
    by_cases hc5 : b2.rank.val < a2.rank.val
    case pos =>
      rw [if_pos hc5]
      refine congrArg some ?_
      symm
      rw [Nat.compare_eq_gt]
      omega
    rw [if_neg hc5]
    by_cases hc6 : a3.rank.val < b3.rank.val
    case pos =>
      rw [if_pos hc6]
      refine congrArg some ?_
      symm
      rw [Nat.compare_eq_lt]
      omega
    rw [if_neg hc6]
    by_cases hc7 : b3.rank.val < a3.rank.val
    case pos =>
      rw [if_pos hc7]
      refine congrArg some ?_
      symm
      rw [Nat.compare_eq_gt]
      omega
    rw [if_neg hc7]
    by_cases hc8 : a4.rank.val < b4.rank.val
    case pos =>
      rw [if_pos hc8]
      refine congrArg some ?_
      symm
      rw [Nat.compare_eq_lt]
      omega
    rw [if_neg hc8]
    by_cases hc9 : b4.rank.val < a4.rank.val
    case pos =>
      rw [if_pos hc9]
      refine congrArg some ?_
      symm
      rw [Nat.compare_eq_gt]
      omega
    rw [if_neg hc9]
    refine congrArg some ?_
    symm
    rw [Nat.compare_eq_eq]
    omega
  case _ =>
    have hr : a.hand_rank.val = b.hand_rank.val := by omega
    rw [hr, compare_add_left]

theorem handLe_iff_key (a b : PokerHand) : handLe a b ↔ keyNat a ≤ keyNat b := by
  unfold handLe
  rw [partial_cmp_eq_compare]
  simp only [ne_eq, Option.some.injEq]
  constructor
  · intro h
    by_contra hk
    exact h (Nat.compare_eq_gt.mpr (by omega))
  · intro h hgt
    have := Nat.compare_eq_gt.mp hgt
    omega

instance : IsTotal PokerHand handLe :=
  ⟨fun a b => by
    rw [handLe_iff_key, handLe_iff_key]
    exact Nat.le_total _ _⟩

instance : IsTrans PokerHand handLe :=
  ⟨fun a b c hab hbc => by
    rw [handLe_iff_key] at hab hbc ⊢
    omega⟩

theorem handLe_refl (a : PokerHand) : handLe a a := by
  rw [handLe_iff_key]

/-- Value equality is key equality, for five-card hands. -/
theorem pokerHandEq_iff_key (a b : PokerHand)
    (ha : a.cards.length = 5) (hb : b.cards.length = 5) :
    PokerHand.eq a b = true ↔ keyNat a = keyNat b := by
  obtain ⟨a0, a1, a2, a3, a4, hA⟩ := list_len5 _ ha
  obtain ⟨b0, b1, b2, b3, b4, hB⟩ := list_len5 _ hb
  have hra := pokerHandRanks_val_le a.hand_rank
  have hrb := pokerHandRanks_val_le b.hand_rank
  unfold PokerHand.eq keyNat
  rw [hA, hB]
  have eA : rankKey [a0, a1, a2, a3, a4] =
      (((a0.rank.val * 15 + a1.rank.val) * 15 + a2.rank.val) * 15 + a3.rank.val) * 15
        + a4.rank.val := rfl
  have eB : rankKey [b0, b1, b2, b3, b4] =
      (((b0.rank.val * 15 + b1.rank.val) * 15 + b2.rank.val) * 15 + b3.rank.val) * 15
        + b4.rank.val := rfl
  rw [eA, eB]
  have p0 := ranks_val_le a0.rank
  have p1 := ranks_val_le a1.rank
  have p2 := ranks_val_le a2.rank
  have p3 := ranks_val_le a3.rank
  have p4 := ranks_val_le a4.rank
  have q0 := ranks_val_le b0.rank
  have q1 := ranks_val_le b1.rank
  have q2 := ranks_val_le b2.rank
  have q3 := ranks_val_le b3.rank
  have q4 := ranks_val_le b4.rank
  split_ifs with hne
  · simp only [Bool.false_eq_true, false_iff]
    intro hk
    exact hne ((pokerHandRanks_val_inj _ _).mp (by omega))
  · have hr : a.hand_rank.val = b.hand_rank.val :=
      (pokerHandRanks_val_inj _ _).mpr (not_not.mp hne)
    dsimp only
    simp only [Bool.and_eq_true, beq_iff_eq, ← Ranks.val_inj]
    constructor
    · rintro ⟨⟨⟨⟨e0, e1⟩, e2⟩, e3⟩, e4⟩
      omega
    · intro hk
      exact ⟨⟨⟨⟨by omega, by omega⟩, by omega⟩, by omega⟩, by omega⟩



theorem hands_sorted_key (l : List PokerHand) (h : l.Sorted handLe) :
    l.Pairwise (fun a b => keyNat a ≤ keyNat b) :=
  h.imp (fun hab => (handLe_iff_key _ _).mp hab)

/-- C3: the comparison on classified hands is a total order on hand value:
category first (a higher category is greater), then the five scoring-order
ranks pairwise left-to-right, suits never deciding; two hands with equal
category and equal scoring ranks compare `Equal`.  The relation is
reflexive, antisymmetric up to value equality, transitive and total, and
sorting an already sorted list of hands leaves it unchanged. -/
theorem C3_comparator_total_order :
    (∀ a : PokerHand, PokerHand.partial_cmp a a = some Ordering.eq) ∧
    (∀ a b : PokerHand, a.hand_rank.val < b.hand_rank.val →
      PokerHand.partial_cmp a b = some Ordering.lt) ∧
    (∀ a b : PokerHand, a.cards.length = 5 → b.cards.length = 5 →
      (PokerHand.partial_cmp a b = some Ordering.eq ↔ PokerHand.eq a b = true)) ∧
    (∀ a b : PokerHand, a.cards.length = 5 → b.cards.length = 5 →
      handLe a b → handLe b a → PokerHand.eq a b = true) ∧
    (∀ a b c : PokerHand, handLe a b → handLe b c → handLe a c) ∧
    (∀ a b : PokerHand, handLe a b ∨ handLe b a) ∧
    (∀ l : List PokerHand, l.Sorted handLe → l.insertionSort handLe = l) := by
  refine ⟨?_, ?_, ?_, ?_, ?_, ?_, ?_⟩
  · intro a
    rw [partial_cmp_eq_compare]
    exact congrArg some (Nat.compare_eq_eq.mpr rfl)
  · intro a b hlt
    rw [partial_cmp_eq_compare]
    refine congrArg some (Nat.compare_eq_lt.mpr ?_)
    have hka := rankKey_lt a.cards
    have hkb := rankKey_lt b.cards
    unfold keyNat
    omega
  · intro a b ha hb
    rw [partial_cmp_eq_compare, pokerHandEq_iff_key a b ha hb]
    simp only [Option.some.injEq]
    exact ⟨fun h => Nat.compare_eq_eq.mp h, fun h => Nat.compare_eq_eq.mpr h⟩
  · intro a b ha hb hab hba
    rw [handLe_iff_key] at hab hba
    exact (pokerHandEq_iff_key a b ha hb).mpr (by omega)
  · intro a b c hab hbc
    rw [handLe_iff_key] at hab hbc ⊢
    omega
  · intro a b
    rw [handLe_iff_key, handLe_iff_key]
    exact Nat.le_total _ _
  · intro l hl
    exact hl.insertionSort_eq

/-! ### The winner selector -/

theorem arrangementOk_length (hr : PokerHandRanks) (rs : List Nat)
    (h : arrangementOk hr rs = true) : rs.length = 5 := by
  unfold arrangementOk at h
  split at h
  · rfl
  · cases h

theorem new_ok_len (s : String) (h : PokerHand) (hnew : PokerHand.new s = .ok h) :
    h.cards.length = 5 := by
  obtain ⟨parsed, hp, -, -, -, -⟩ := new_ok_fields s h hnew
  have harr := (classified_hand_spec s h parsed hnew hp).2
  have hl := arrangementOk_length _ _ harr
  simpa using hl

theorem validHands_mem_new (hands : List String) (x : PokerHand) (hx : x ∈ validHands hands) :
    ∃ s ∈ hands, PokerHand.new s = .ok x := by
  unfold validHands at hx
  obtain ⟨s, hs, hsx⟩ := List.mem_filterMap.mp hx
  refine ⟨s, hs, ?_⟩
  rcases hnew : PokerHand.new s with e | v <;> rw [hnew] at hsx
  · simp [Except.toOption] at hsx
  · simp only [Except.toOption, Option.some.injEq] at hsx
    rw [hsx]

theorem validHands_len (hands : List String) :
    ∀ x ∈ validHands hands, x.cards.length = 5 := by
  intro x hx
  obtain ⟨s, -, hnew⟩ := validHands_mem_new hands x hx
  exact new_ok_len s x hnew

theorem takeWhile_congr_mem {α : Type} (p q : α → Bool) :
    ∀ l : List α, (∀ x ∈ l, p x = q x) → l.takeWhile p = l.takeWhile q
  | [], _ => rfl
  | a :: l, h => by
    have ha := h a (List.mem_cons_self a l)
    by_cases hq : q a = true
    · rw [List.takeWhile_cons_of_pos (ha ▸ hq), List.takeWhile_cons_of_pos hq]
      rw [takeWhile_congr_mem p q l (fun x hx => h x (List.mem_cons_of_mem a hx))]
    · rw [List.takeWhile_cons_of_neg (by simp_all), List.takeWhile_cons_of_neg (by simp_all)]

/-- Filtering a key-equivalence class through an ordered insertion: the
inserted hand lands in front of its class. -/
theorem filter_orderedInsert_key (k : Nat) (a : PokerHand) :
    ∀ l : List PokerHand,
      (l.orderedInsert handLe a).filter (fun h => keyNat h == k) =
        if keyNat a = k then a :: l.filter (fun h => keyNat h == k)
        else l.filter (fun h => keyNat h == k)
  | [] => by
    by_cases hak : keyNat a = k
    · rw [if_pos hak]
      show List.filter _ [a] = [a]
      rw [List.filter_cons_of_pos (by simp [hak])]
      rfl
    · rw [if_neg hak]
      show List.filter _ [a] = []
      rw [List.filter_cons_of_neg (by simp [hak])]
      rfl
  | b :: l => by
    unfold List.orderedInsert
    by_cases hab : handLe a b
    · rw [if_pos hab]
      by_cases hak : keyNat a = k
      · rw [if_pos hak, List.filter_cons_of_pos (by simp [hak])]
      · rw [if_neg hak, List.filter_cons_of_neg (by simp [hak])]
    · rw [if_neg hab]
      have hlt : keyNat b < keyNat a := by
        have := (handLe_iff_key a b).not.mp hab
        omega
      by_cases hbk : keyNat b = k
      · rw [List.filter_cons_of_pos (by simp [hbk]), filter_orderedInsert_key k a l,
          List.filter_cons_of_pos (by simp [hbk])]
        have hak : ¬ keyNat a = k := by omega
        rw [if_neg hak, if_neg hak]
      · rw [List.filter_cons_of_neg (by simp [hbk]), filter_orderedInsert_key k a l,
          List.filter_cons_of_neg (by simp [hbk])]

/-- Stability of the sort on a key-equivalence class: the class appears in
the sorted list in its input order. -/
theorem filter_insertionSort_key (k : Nat) :
    ∀ l : List PokerHand,
      (l.insertionSort handLe).filter (fun h => keyNat h == k) =
        l.filter (fun h => keyNat h == k)
  | [] => rfl
  | a :: l => by
    rw [List.insertionSort, filter_orderedInsert_key k a, filter_insertionSort_key k l]
    by_cases hak : keyNat a = k
    · rw [if_pos hak, List.filter_cons_of_pos (by simp [hak])]
    · rw [if_neg hak, List.filter_cons_of_neg (by simp [hak])]

/-- On a descending list bounded by `k`, taking while the key equals `k`
is the same as filtering the class of `k`. -/
theorem takeWhile_eq_filter_key (k : Nat) :
    ∀ l : List PokerHand,
      (∀ x ∈ l, keyNat x ≤ k) →
      l.Pairwise (fun a b => keyNat b ≤ keyNat a) →
      l.takeWhile (fun h => keyNat h == k) = l.filter (fun h => keyNat h == k)
  | [], _, _ => rfl
  | x :: l, hub, hp => by
    by_cases hxk : keyNat x = k
    · rw [List.takeWhile_cons_of_pos (by simp [hxk]), List.filter_cons_of_pos (by simp [hxk])]
      rw [takeWhile_eq_filter_key k l (fun y hy => hub y (List.mem_cons_of_mem x hy)) hp.of_cons]
    · rw [List.takeWhile_cons_of_neg (by simp [hxk]), List.filter_cons_of_neg (by simp [hxk])]
      symm
      rw [List.filter_eq_nil_iff]
      intro y hy
      have h1 : keyNat y ≤ keyNat x := List.rel_of_pairwise_cons hp hy
      have h2 : keyNat x ≤ k := hub x (List.mem_cons_self x l)
      simp only [beq_iff_eq]
      omega

/-- Full characterization of `winning_hands`: `none` exactly on an empty
valid-hand collection, and otherwise the handles of the hands value-equal
to a maximum, in reverse input order. -/
theorem winning_hands_spec (hands : List String) :
    (winning_hands hands = none ↔ validHands hands = []) ∧
    (∀ l, winning_hands hands = some l →
      ∃ top, top ∈ validHands hands ∧
        (∀ x ∈ validHands hands, handLe x top) ∧
        l = (((validHands hands).filter (fun x => PokerHand.eq x top)).map
              (fun x => x.hand_handle)).reverse) := by
  have hperm : List.Perm ((validHands hands).insertionSort handLe) (validHands hands) :=
    List.perm_insertionSort handLe (validHands hands)
  have hsorted : ((validHands hands).insertionSort handLe).Sorted handLe :=
    List.sorted_insertionSort handLe (validHands hands)
  constructor
  · constructor
    · intro h
      rcases hni : ((validHands hands).insertionSort handLe).reverse with _ | ⟨t, r⟩
      · have h0 : (validHands hands).insertionSort handLe = [] :=
          List.reverse_eq_nil_iff.mp hni
        rw [h0] at hperm
        exact hperm.symm.eq_nil
      · unfold winning_hands sortedHands at h
        rw [hni] at h
        rcases r with _ | ⟨r1, rr⟩ <;> cases h
    · intro h
      unfold winning_hands sortedHands
      have h2 : (validHands hands).insertionSort handLe = [] := by
        rw [h]
        rfl
      rw [h2]
      rfl
  · intro l hl
    -- the sorted-descending list is nonempty
    rcases hsd : ((validHands hands).insertionSort handLe).reverse with _ | ⟨top, rest⟩
    · unfold winning_hands sortedHands at hl
      rw [hsd] at hl
      cases hl
    have hval : l = top.hand_handle ::
        (rest.takeWhile (fun h => PokerHand.eq h top)).map (fun h => h.hand_handle) := by
      unfold winning_hands sortedHands at hl
      rw [hsd] at hl
      rcases rest with _ | ⟨r1, rest'⟩
      · exact (Option.some.inj hl).symm
      · exact (Option.some.inj hl).symm
    -- the reversed sorted list is descending in keys
    have hdesc : (top :: rest).Pairwise (fun a b => keyNat b ≤ keyNat a) := by
      rw [← hsd]
      rw [List.pairwise_reverse]
      exact hands_sorted_key _ hsorted
    have hmem : ∀ x, x ∈ validHands hands ↔ x ∈ top :: rest := by
      intro x
      rw [← hsd, List.mem_reverse]
      exact (hperm.mem_iff).symm
    have htopmem : top ∈ validHands hands := (hmem top).mpr (List.mem_cons_self top rest)
    have hmax : ∀ x ∈ validHands hands, handLe x top := by
      intro x hx
      rcases List.mem_cons.mp ((hmem x).mp hx) with h | h
      · rw [h]
        exact handLe_refl top
      · rw [handLe_iff_key]
        exact List.rel_of_pairwise_cons hdesc h
    refine ⟨top, htopmem, hmax, ?_⟩
    -- lengths
    have hlen5 : ∀ x ∈ validHands hands, x.cards.length = 5 := validHands_len hands
    have htop5 : top.cards.length = 5 := hlen5 top htopmem
    -- switch the predicate to the key class
    have hpred : ∀ x ∈ validHands hands,
        (PokerHand.eq x top) = (keyNat x == keyNat top) := by
      intro x hx
      apply bool_eq_of_iff
      rw [pokerHandEq_iff_key x top (hlen5 x hx) htop5]
      simp [beq_iff_eq]
    have hpred' : ∀ x ∈ rest, (fun h => PokerHand.eq h top) x =
        (fun h => keyNat h == keyNat top) x := by
      intro x hx
      exact hpred x ((hmem x).mpr (List.mem_cons_of_mem top hx))
    rw [hval]
    rw [takeWhile_congr_mem _ _ rest hpred']
    have hub : ∀ x ∈ rest, keyNat x ≤ keyNat top := by
      intro x hx
      exact List.rel_of_pairwise_cons hdesc hx
    rw [takeWhile_eq_filter_key (keyNat top) rest hub hdesc.of_cons]
    have hfil : (validHands hands).filter (fun x => PokerHand.eq x top) =
        (validHands hands).filter (fun x => keyNat x == keyNat top) :=
      List.filter_congr hpred
    rw [hfil, ← filter_insertionSort_key (keyNat top) (validHands hands)]
    rw [show (validHands hands).insertionSort handLe = (top :: rest).reverse from by
      rw [← hsd, List.reverse_reverse]]
    rw [List.filter_reverse, List.map_reverse, List.reverse_reverse]
    rw [List.filter_cons_of_pos (by simp)]
    rfl

/-! ### The claims -/

/-- C1: for every syntactically valid, duplicate-free five-card hand,
`PokerHand::new` assigns the category the standard poker hierarchy
requires: the category is one of the nine `PokerHandRanks` values, and it
is the highest-value matching category, i.e. the first match in the order
StraightFlush > FourOfAKind > FullHouse > Flush > Straight > ThreeOfAKind
> TwoPair > Pair > HighCard, as stated by the spec-side `specCategory`. -/
theorem C1_classification_hierarchy (s : String) (h : PokerHand) (parsed : List Card)
    (hnew : PokerHand.new s = Except.ok h) (hp : parse_hand_str s = some parsed) :
    h.hand_rank = specCategory parsed :=
  (classified_hand_spec s h parsed hnew hp).1

theorem C1_classification_hierarchy_witness :
    (PokerHand.mk "9H AS JC 10D 5H" PokerHandRanks.HighCard
      [Card.new .Ace .Spades, Card.new .Jack .Clubs, Card.new .Ten .Diamonds,
        Card.new .Nine .Hearts, Card.new .Five .Hearts]).hand_rank =
      specCategory [Card.new .Nine .Hearts, Card.new .Ace .Spades, Card.new .Jack .Clubs,
        Card.new .Ten .Diamonds, Card.new .Five .Hearts] :=
  C1_classification_hierarchy "9H AS JC 10D 5H" _ _ (by rfl) (by rfl)

/-- C2 counterexample: the Ace-low straight "AH 5H 4H 3S 2H" classifies
as Straight but is stored as ranks [5,4,3,2,14], which is not descending
rank order; the claim's clause that a Straight is stored in descending
rank order fails on the wheel. -/
theorem C2_scoring_order_counterexample :
    (PokerHand.new "AH 5H 4H 3S 2H").toOption.map
        (fun h => (h.hand_rank, h.cards.map (fun c => c.rank.val))) =
      some (PokerHandRanks.Straight, [5, 4, 3, 2, 14]) ∧
    rankListDesc [5, 4, 3, 2, 14] = false := by
  constructor
  · rfl
  · rfl

/-- C2 (amended): for every valid hand the stored cards follow the
per-category scoring order — FourOfAKind: the four matching cards first,
kicker last; FullHouse: triple first, pair last; ThreeOfAKind: triple
first, kickers descending; TwoPair: higher pair, lower pair, kicker;
Pair: pair first, kickers descending; HighCard and Flush: descending rank
order — amended in the Straight/StraightFlush case: consecutive
descending ranks, except the Ace-low wheel, which is stored [5,4,3,2,A]
with the Ace last. -/
theorem C2_scoring_order_amended (s : String) (h : PokerHand) (parsed : List Card)
    (hnew : PokerHand.new s = Except.ok h) (hp : parse_hand_str s = some parsed) :
    arrangementOk h.hand_rank (h.cards.map (fun c => c.rank.val)) = true :=
  (classified_hand_spec s h parsed hnew hp).2

theorem C2_scoring_order_amended_witness :
    arrangementOk (PokerHand.mk "4D 4H JD 6C 2S" PokerHandRanks.Pair
        [Card.new .Four .Hearts, Card.new .Four .Diamonds, Card.new .Jack .Diamonds,
          Card.new .Six .Clubs, Card.new .Two .Spades]).hand_rank
      ((PokerHand.mk "4D 4H JD 6C 2S" PokerHandRanks.Pair
        [Card.new .Four .Hearts, Card.new .Four .Diamonds, Card.new .Jack .Diamonds,
          Card.new .Six .Clubs, Card.new .Two .Spades]).cards.map (fun c => c.rank.val)) =
      true :=
  C2_scoring_order_amended "4D 4H JD 6C 2S" _
    [Card.new .Four .Diamonds, Card.new .Four .Hearts, Card.new .Jack .Diamonds,
      Card.new .Six .Clubs, Card.new .Two .Spades] (by rfl) (by rfl)

/-- C4: `winning_hands` skips invalid entries (it is defined over
`validHands`, the hands whose construction succeeds), returns `none`
exactly when no string yields a valid hand, and otherwise returns the
original input strings of exactly the hands value-equal to a maximum
under the comparator, ties included. -/
theorem C4_winner_selection (hands : List String) :
    (winning_hands hands = none ↔ validHands hands = []) ∧
    (∀ l, winning_hands hands = some l →
      ∃ top, top ∈ validHands hands ∧
        (∀ x ∈ validHands hands, handLe x top) ∧
        List.Perm l (((validHands hands).filter (fun x => PokerHand.eq x top)).map
          (fun x => x.hand_handle))) := by
  refine ⟨(winning_hands_spec hands).1, ?_⟩
  intro l hl
  obtain ⟨top, hmem, hmax, heq⟩ := (winning_hands_spec hands).2 l hl
  exact ⟨top, hmem, hmax, heq ▸ List.reverse_perm _⟩

/-- C5 counterexample: two hands tied for best appear in the output in
the reverse of their input order — the input ["4D 4H JD 6C 2S",
"4C 4S JH 6S 2S"] produces ["4C 4S JH 6S 2S", "4D 4H JD 6C 2S"], not the
input order, because the code stable-sorts ascending and then reverses
the whole list, which reverses the order of equal elements. -/
theorem C5_tie_order_counterexample :
    winning_hands ["4D 4H JD 6C 2S", "4C 4S JH 6S 2S"] =
      some ["4C 4S JH 6S 2S", "4D 4H JD 6C 2S"] ∧
    (["4C 4S JH 6S 2S", "4D 4H JD 6C 2S"] : List String) ≠
      ["4D 4H JD 6C 2S", "4C 4S JH 6S 2S"] := by
  constructor
  · rfl
  · decide

/-- C5 (amended): when several hands tie for the best value the output is
deterministic and stable with respect to the input, but in reverse: the
tied winners appear in the output in the reverse of the relative order in
which they appeared in the input (`validHands` preserves input order and
the result is its filtered winner class, reversed). -/
theorem C5_tie_order_amended (hands : List String) (l : List String)
    (hl : winning_hands hands = some l) :
    ∃ top, top ∈ validHands hands ∧
      (∀ x ∈ validHands hands, handLe x top) ∧
      l = (((validHands hands).filter (fun x => PokerHand.eq x top)).map
            (fun x => x.hand_handle)).reverse :=
  (winning_hands_spec hands).2 l hl

theorem C5_tie_order_amended_witness :
    ∃ top, top ∈ validHands ["4D 4H JD 6C 2S", "4C 4S JH 6S 2S"] ∧
      (∀ x ∈ validHands ["4D 4H JD 6C 2S", "4C 4S JH 6S 2S"], handLe x top) ∧
      ["4C 4S JH 6S 2S", "4D 4H JD 6C 2S"] =
        (((validHands ["4D 4H JD 6C 2S", "4C 4S JH 6S 2S"]).filter
            (fun x => PokerHand.eq x top)).map (fun x => x.hand_handle)).reverse :=
  C5_tie_order_amended ["4D 4H JD 6C 2S", "4C 4S JH 6S 2S"]
    ["4C 4S JH 6S 2S", "4D 4H JD 6C 2S"] (by rfl)

/-- C6: "AH 5H 4H 3H 2H" classifies as StraightFlush with the Ace moved
to the last (lowest) scoring position; every Ace-low wheel classifies as
StraightFlush exactly when the suits all agree and as Straight otherwise,
with scoring ranks [Five, Four, Three, Two, Ace] so its effective top
card is the 5; and a wheel compares below a 6-high straight. -/
theorem C6_wheel_straight :
    ((PokerHand.new "AH 5H 4H 3H 2H").toOption.map
        (fun h => (h.hand_rank, h.cards.map (fun c => c.rank.val))) =
      some (PokerHandRanks.StraightFlush, [5, 4, 3, 2, 14])) ∧
    (∀ s0 s1 s2 s3 s4 : Suits,
      (classify [Card.new .Ace s0, Card.new .Five s1, Card.new .Four s2,
          Card.new .Three s3, Card.new .Two s4]).1 =
        (if s0 = s1 ∧ s0 = s2 ∧ s0 = s3 ∧ s0 = s4 then PokerHandRanks.StraightFlush
          else PokerHandRanks.Straight) ∧
      (classify [Card.new .Ace s0, Card.new .Five s1, Card.new .Four s2,
          Card.new .Three s3, Card.new .Two s4]).2.map (fun c => c.rank) =
        [Ranks.Five, Ranks.Four, Ranks.Three, Ranks.Two, Ranks.Ace]) ∧
    ((PokerHand.new "AH 5H 4H 3S 2H").toOption.bind (fun hw =>
        (PokerHand.new "6H 5D 4C 3S 2H").toOption.map
          (fun h6 => PokerHand.partial_cmp hw h6)) = some (some Ordering.lt)) := by
  refine ⟨by rfl, ?_, by rfl⟩
  decide

/-- C7: `parse_hand_str` accepts a string iff it is exactly five card
tokens — a rank code 2-9, 10, J, Q, K or A immediately followed by a suit
code H, S, C or D — separated by single spaces with no leading or
trailing characters; any other string (wrong token count, bad rank, bad
suit, malformed separators, partial match) is rejected. -/
theorem C7_parser_strict (s : String) :
    (∃ l, parse_hand_str s = some l) ↔
      ∃ c1 c2 c3 c4 c5 : Card,
        s.data = renderCard c1 ++ ' ' :: (renderCard c2 ++ ' ' :: (renderCard c3 ++ ' ' ::
          (renderCard c4 ++ ' ' :: renderCard c5))) := by
  constructor
  · rintro ⟨l, h⟩
    obtain ⟨c1, c2, c3, c4, c5, -, hshape⟩ := parse_hand_str_some s l h
    exact ⟨c1, c2, c3, c4, c5, hshape⟩
  · rintro ⟨c1, c2, c3, c4, c5, hs⟩
    exact ⟨[c1, c2, c3, c4, c5], parse_hand_str_render s c1 c2 c3 c4 c5 hs⟩

/-- C8: for a syntactically valid hand string, construction fails with
the duplicate-card error exactly when two of the five parsed cards are
identical in rank and suit; the check covers every unordered pair of the
parsed cards, not only cards adjacent in the sorted order. -/
theorem C8_duplicate_detection (s : String) (parsed : List Card)
    (hp : parse_hand_str s = some parsed) :
    PokerHand.new s = Except.error (PokerHandError.new "Duplicate cards in hand")
      ↔ ¬ parsed.Nodup := by
  have hiff := check_dup_iff (sortCards parsed)
  have hperm : (sortCards parsed).Nodup ↔ parsed.Nodup := (sortCards_perm parsed).nodup_iff
  unfold PokerHand.new
  rw [hp]
  dsimp only
  constructor
  · intro h
    split_ifs at h with hd
    exact fun hnd => (hiff.mp hd) (hperm.mpr hnd)
  · intro hnd
    rw [if_pos (hiff.mpr (fun hcon => hnd (hperm.mp hcon)))]

theorem C8_duplicate_detection_witness :
    (PokerHand.new "9H AS JC JC 5H" =
        Except.error (PokerHandError.new "Duplicate cards in hand")
      ↔ ¬ ([Card.new .Nine .Hearts, Card.new .Ace .Spades, Card.new .Jack .Clubs,
            Card.new .Jack .Clubs, Card.new .Five .Hearts] : List Card).Nodup) :=
  C8_duplicate_detection "9H AS JC JC 5H" _ (by rfl)

theorem rankFromString_render : ∀ r : Ranks, rankFromString (rankStr r) = some r := by
  intro r
  cases r <;> rfl

theorem suitFromString_render : ∀ su : Suits, suitFromString [suitChar su] = some su := by
  intro su
  cases su <;> rfl

/-- C9: the pipeline is total modulo the two declared failures: a
successful parse always yields exactly five cards (the classifier's
indexing is in bounds), `convert_strings_to_card` cannot reach a panic
branch on substrings captured by the regex's rank and suit groups, and
`partial_cmp` on hands never returns `None`, so the `unwrap` inside
`winning_hands` cannot panic. -/
theorem C9_no_panics :
    (∀ s l, parse_hand_str s = some l → l.length = 5) ∧
    (∀ cs tok rest, rankCapture cs = some (tok, rest) → rankFromString tok ≠ none) ∧
    (∀ c, suitClass c = true → suitFromString [c] ≠ none) ∧
    (∀ cs tok rest c, rankCapture cs = some (tok, rest) → suitClass c = true →
      convert_strings_to_card tok [c] ≠ none) ∧
    (∀ a b : PokerHand, PokerHand.partial_cmp a b ≠ none) := by
  have hrank : ∀ cs tok rest, rankCapture cs = some (tok, rest) →
      ∃ r, rankFromString tok = some r := by
    intro cs tok rest h
    obtain ⟨r, rfl, -⟩ := rankCapture_some cs tok rest h
    exact ⟨r, rankFromString_render r⟩
  have hsuit : ∀ c, suitClass c = true → ∃ su, suitFromString [c] = some su := by
    intro c h
    obtain ⟨su, rfl⟩ := suitClass_some c h
    exact ⟨su, suitFromString_render su⟩
  refine ⟨?_, ?_, ?_, ?_, ?_⟩
  · intro s l h
    obtain ⟨c1, c2, c3, c4, c5, rfl, -⟩ := parse_hand_str_some s l h
    rfl
  · intro cs tok rest h
    obtain ⟨r, hr⟩ := hrank cs tok rest h
    rw [hr]
    exact Option.some_ne_none r
  · intro c h
    obtain ⟨su, hsu⟩ := hsuit c h
    rw [hsu]
    exact Option.some_ne_none su
  · intro cs tok rest c h hc
    obtain ⟨r, hr⟩ := hrank cs tok rest h
    obtain ⟨su, hsu⟩ := hsuit c hc
    unfold convert_strings_to_card
    rw [hr, hsu]
    exact Option.some_ne_none _
  · intro a b
    rw [partial_cmp_eq_compare]
    exact Option.some_ne_none _

/-- C10: hand-value comparison is strictly weaker than identity equality:
two cards of equal rank and different suit compare `Equal` under
`partial_cmp` yet are unequal under `Card` equality, and two hands with
equal category and equal scoring-order ranks are value-equal under the
hand `PartialEq` regardless of suits, so distinct hands can be
value-equal (witnessed by the two pair-of-fours hands). -/
theorem C10_value_weaker_than_identity :
    (∀ c1 c2 : Card, c1.rank = c2.rank → c1.suit ≠ c2.suit →
      Card.partial_cmp c1 c2 = some Ordering.eq ∧ c1 ≠ c2) ∧
    (∀ h1 h2 : PokerHand, h1.hand_rank = h2.hand_rank →
      h1.cards.map (fun c => c.rank) = h2.cards.map (fun c => c.rank) →
      PokerHand.eq h1 h2 = true) ∧
    ((PokerHand.new "4C 4S JH 6S 2S").toOption.bind (fun h1 =>
      (PokerHand.new "4D 4H JD 6C 2S").toOption.map (fun h2 =>
        (PokerHand.eq h1 h2, h1 == h2))) = some (true, false)) := by
  refine ⟨?_, ?_, by rfl⟩
  · intro c1 c2 hr hs
    constructor
    · unfold Card.partial_cmp
      rw [hr]
      exact congrArg some (Nat.compare_eq_eq.mpr rfl)
    · intro hEq
      exact hs (congrArg Card.suit hEq)
  · intro h1 h2 hr hm
    have hgetD : ∀ i, ((h1.cards.getD i defaultCard).rank =
        (h2.cards.getD i defaultCard).rank) := by
      intro i
      have hlen : h1.cards.length = h2.cards.length := by
        have := congrArg List.length hm
        simpa using this
      have h1g := List.getD_eq_getElem?_getD h1.cards i defaultCard
      have h2g := List.getD_eq_getElem?_getD h2.cards i defaultCard
      by_cases hi : i < h1.cards.length
      · have e1 : h1.cards[i]? = some h1.cards[i] := List.getElem?_eq_getElem hi
        have e2 : h2.cards[i]? = some h2.cards[i] := List.getElem?_eq_getElem (hlen ▸ hi)
        have : h1.cards[i].rank = h2.cards[i].rank := by
          have hmi := congrArg (fun l => l[i]?) hm
          simp only [List.getElem?_map, e1, e2] at hmi
          simpa using hmi
        rw [h1g, h2g, e1, e2]
        simpa using this
      · have e1 : h1.cards[i]? = none := List.getElem?_eq_none (by omega)
        have e2 : h2.cards[i]? = none := List.getElem?_eq_none (by omega)
        rw [h1g, h2g, e1, e2]
    have hkey : rankKey h1.cards = rankKey h2.cards := by
      unfold rankKey
      rw [hgetD 0, hgetD 1, hgetD 2, hgetD 3, hgetD 4]
    unfold PokerHand.eq
    rw [if_neg (not_not_intro hr)]
    split
    · rename_i hA hB
      rename_i a0 a1 a2 a3 a4 ta b0 b1 b2 b3 b4 tb
      have e0 := hgetD 0
      have e1 := hgetD 1
      have e2 := hgetD 2
      have e3 := hgetD 3
      have e4 := hgetD 4
      rw [hA, hB] at e0 e1 e2 e3 e4
      simp only [List.getD] at e0 e1 e2 e3 e4
      simp only [Bool.and_eq_true, beq_iff_eq]
      exact ⟨⟨⟨⟨by simpa using e0, by simpa using e1⟩, by simpa using e2⟩,
        by simpa using e3⟩, by simpa using e4⟩
    · simp only [beq_iff_eq]
      exact hkey

end Poker
